import Mathlib

/-!
# The PDF tool handlers of main.go

A shallow embedding of `convertPDFToImages`, `getPageCount` and `checkImageMagick`, with
models of the library functions they call (`encoding/base64`, `strconv`, `strings`,
`path/filepath`, `os`, `os/exec`) over an explicit filesystem and an environment that fixes
what the external commands do. Definitions come first, then the lemmas, then one theorem
for each claim about the program.
-/

namespace PdfRead

deriving instance DecidableEq for Except

/-- One byte of file data. -/
abbrev Byte := Fin 256

/-- The alphabet of base64.StdEncoding (RFC 4648). -/
def encodeStd : List Char :=
  "ABCDEFGHIJKLMNOPQRSTUVWXYZabcdefghijklmnopqrstuvwxyz0123456789+/".data

/-- The padding character of base64.StdEncoding. -/
def padChar : Char := '='

/-- The character `enc.encode[i]` of the standard alphabet. -/
def encodeChar (i : Nat) : Char := encodeStd.getD i 'A'

/-- The entry `enc.decodeMap[c]`: the index of `c` in the alphabet, `none` for 0xff. -/
def decodeMap (c : Char) : Option Nat :=
  let i := encodeStd.indexOf c
  if i < 64 then some i else none

/-- Encoding of `base64.StdEncoding.EncodeToString`, as a list of characters: whole groups of
three bytes give four characters, a remainder of one or two bytes is padded with `=`.
`val` is `src[0]<<16 | src[1]<<8 | src[2]`, and `val>>k & 0x3F` is `val / 2^k % 64`. -/
def encodeChars : List Byte → List Char
  | [] => []
  | [b0] =>
    let val := b0.val * 65536
    [encodeChar (val / 262144 % 64), encodeChar (val / 4096 % 64), padChar, padChar]
  | [b0, b1] =>
    let val := b0.val * 65536 + b1.val * 256
    [encodeChar (val / 262144 % 64), encodeChar (val / 4096 % 64),
      encodeChar (val / 64 % 64), padChar]
  | b0 :: b1 :: b2 :: rest =>
    let val := b0.val * 65536 + b1.val * 256 + b2.val
    encodeChar (val / 262144 % 64) :: encodeChar (val / 4096 % 64) ::
      encodeChar (val / 64 % 64) :: encodeChar (val % 64) :: encodeChars rest

/-- Model of `base64.StdEncoding.EncodeToString`. -/
def encodeToString (src : List Byte) : String := String.mk (encodeChars src)

/-- The byte `byte(n)`: the low eight bits of `n`. -/
def toByte (n : Nat) : Byte := ⟨n % 256, Nat.mod_lt _ (by decide)⟩

/-- The end of `decodeQuantum`: the sextets read (`dlen` of them, the rest zero) are assembled
into `val` and give `dlen - 1` bytes. -/
def assemble (dbuf : List Nat) : List Byte :=
  let val := dbuf.getD 0 0 * 262144 + dbuf.getD 1 0 * 4096 + dbuf.getD 2 0 * 64 + dbuf.getD 3 0
  ([toByte (val / 65536), toByte (val / 256), toByte val]).take (dbuf.length - 1)

/-- The loop `for si < len(src) && (src[si] == '\n' || src[si] == '\r') { si++ }`. -/
def skipNewlines : List Char → List Char
  | [] => []
  | c :: cs => if c = '\n' ∨ c = '\r' then skipNewlines cs else c :: cs

/-- The padding branch of `decodeQuantum`: a first `=` has been read after `dbuf` (j sextets).
With fewer than two sextets the padding is incorrect; after two sextets a second `=` must
follow; anything but newlines after the padding is trailing garbage. -/
def decodePadding (dbuf : List Nat) (rest : List Char) : Option (List Byte) :=
  if dbuf.length < 2 then none
  else
    let afterPad : Option (List Char) :=
      if dbuf.length = 2 then
        match skipNewlines rest with
        | [] => none
        | c :: r => if c = padChar then some r else none
      else some rest
    match afterPad with
    | none => none
    | some r => if skipNewlines r = [] then some (assemble dbuf) else none

/-- Model of `Encoding.Decode` for StdEncoding over the characters of the input, with `dbuf`
the sextets of the quantum being read: characters of the alphabet fill the quantum, a full
quantum gives three bytes, `\r` and `\n` are skipped, any other character but `=` is corrupt
input, and the input may only end between quanta. `none` is a CorruptInputError. -/
def decodeChars : List Char → List Nat → Option (List Byte)
  | [], dbuf => if dbuf = [] then some [] else none
  | c :: rest, dbuf =>
    match decodeMap c with
    | some out =>
      if dbuf.length = 3 then (decodeChars rest []).map (assemble (dbuf ++ [out]) ++ ·)
      else decodeChars rest (dbuf ++ [out])
    | none =>
      if c = '\n' ∨ c = '\r' then decodeChars rest dbuf
      else if c ≠ padChar then none
      else decodePadding dbuf rest

/-- Model of `base64.StdEncoding.DecodeString`; `none` stands for a non-nil error. -/
def decodeString (s : String) : Option (List Byte) := decodeChars s.data []

/-! ## Text helpers of the Go standard library -/

/-- The decimal digit character of `d`. -/
def digitChar (d : Nat) : Char := Char.ofNat (48 + d)

/-- Decimal digits of `n`, most significant first; `fuel` bounds the number of digits. -/
def formatNatFuel : Nat → Nat → List Char
  | 0, n => [digitChar (n % 10)]
  | fuel + 1, n =>
    if n < 10 then [digitChar n] else formatNatFuel fuel (n / 10) ++ [digitChar (n % 10)]

/-- Decimal text of a natural number. -/
def formatNat (n : Nat) : List Char := formatNatFuel n n

/-- Characters of `fmt.Sprintf("%d", n)`. -/
def formatInt (n : Int) : List Char :=
  if n < 0 then '-' :: formatNat n.natAbs else formatNat n.natAbs

/-- Model of `fmt.Sprintf("%d", n)`. -/
def sprintfD (n : Int) : String := String.mk (formatInt n)

/-- The two kinds of `strconv.NumError` that `Atoi` reports. -/
inductive NumErr where
  | invalid
  | outOfRange
deriving DecidableEq, Repr

/-- The digit loop of `strconv.ParseUint(s, 10, 64)`: a character that is not a decimal digit
is a syntax error, and a value that leaves 64 bits is a range error (`cutoff` is
`maxUint64/10 + 1`). -/
def parseUintLoop : List Char → Nat → Except NumErr Nat
  | [], n => .ok n
  | c :: cs, n =>
    if c.isDigit then
      if n ≥ 1844674407370955162 then .error .outOfRange
      else
        let n1 := n * 10 + (c.toNat - 48)
        if n1 > 18446744073709551615 then .error .outOfRange else parseUintLoop cs n1
    else .error .invalid

/-- Model of `strconv.ParseUint(s, 10, 64)`. -/
def parseUint (s : List Char) : Except NumErr Nat :=
  if s = [] then .error .invalid else parseUintLoop s 0

/-- Model of `strconv.ParseInt(s, 10, 0)` with 64-bit `int`: an optional sign, then
`ParseUint`; a range error of `ParseUint` stays a range error, and the magnitude must fit
the sign (`cutoff` is `2^63`). The fast path of `Atoi` for short inputs computes the same
result. -/
def parseInt (s : List Char) : Except NumErr Int :=
  if s = [] then .error .invalid
  else
    let neg := s.head? = some '-'
    let digits := if s.head? = some '+' ∨ s.head? = some '-' then s.tail else s
    match parseUint digits with
    | .error .invalid => .error .invalid
    | .error .outOfRange => .error .outOfRange
    | .ok un =>
      if ¬ neg ∧ un ≥ 9223372036854775808 then .error .outOfRange
      else if neg ∧ un > 9223372036854775808 then .error .outOfRange
      else .ok (if neg then - (un : Int) else (un : Int))

/-- The double quote character. -/
def quoteText : String := String.singleton (Char.ofNat 34)

/-- Text of the `*strconv.NumError` returned by `Atoi` (the quoting of the input is the
plain one, exact for inputs without quotes, backslashes or control characters). -/
def numErrorText (s : String) : NumErr → String
  | .invalid => "strconv.Atoi: parsing " ++ quoteText ++ s ++ quoteText ++ ": invalid syntax"
  | .outOfRange =>
    "strconv.Atoi: parsing " ++ quoteText ++ s ++ quoteText ++ ": value out of range"

/-- Model of `strconv.Atoi`: the parsed `int`, or the text of its error. -/
def atoi (s : String) : Except String Int :=
  match parseInt s.data with
  | .ok n => .ok n
  | .error e => .error (numErrorText s e)

/-- The predicate `unicode.IsSpace` on the code point of `c`: tab, newline, vertical tab,
form feed, carriage return, space, U+0085, U+00A0 and the Unicode space separators. -/
def isSpace (c : Char) : Bool :=
  (9 ≤ c.toNat ∧ c.toNat ≤ 13) ∨ c.toNat = 32 ∨
  c.toNat = 0x85 ∨ c.toNat = 0xA0 ∨ c.toNat = 0x1680 ∨
  (0x2000 ≤ c.toNat ∧ c.toNat ≤ 0x200A) ∨ c.toNat = 0x2028 ∨ c.toNat = 0x2029 ∨
  c.toNat = 0x202F ∨ c.toNat = 0x205F ∨ c.toNat = 0x3000

/-- Characters of `strings.TrimSpace(s)`: leading and trailing white space removed. -/
def trimSpaceChars (cs : List Char) : List Char :=
  (cs.dropWhile isSpace).rdropWhile isSpace

/-- Model of `strings.TrimSpace`. -/
def trimSpace (s : String) : String := String.mk (trimSpaceChars s.data)

/-- Pieces of a text between newline characters; never an empty list. -/
def splitLines : List Char → List (List Char)
  | [] => [[]]
  | c :: cs =>
    if c = '\n' then [] :: splitLines cs
    else
      match splitLines cs with
      | [] => [[c]]
      | l :: ls => (c :: l) :: ls

/-- Model of `strings.Split(s, "\n")`. -/
def stringsSplit (s : String) : List String := (splitLines s.data).map String.mk

/-! ## The filesystem, the external commands and the calls made -/

/-- What a path names: a directory, or a regular file with its contents. -/
inductive Node where
  | dir
  | file (data : List Byte)
deriving DecidableEq, Repr

/-- The filesystem as an association list from paths to nodes; the first binding of a path
is the one in force. -/
abbrev FileSystem := List (String × Node)

/-- The node at `path`, if any. -/
def FileSystem.find (fs : FileSystem) (path : String) : Option Node :=
  match fs with
  | [] => none
  | (p, n) :: rest => if p = path then some n else FileSystem.find rest path

/-- Whether `path` is `dir` itself or lies beneath it. -/
def isUnder (dir path : String) : Bool :=
  path = dir ∨ (dir.data ++ ['/']).isPrefixOf path.data

/-- Model of `filepath.Join(dir, name)` for a directory path in clean form and a plain file
name: the two joined by the separator. -/
def filepathJoin (dir name : String) : String := dir ++ "/" ++ name

/-- The name of `path` inside `dir` when `path` is a direct child of `dir`. -/
def childName (dir path : String) : Option String :=
  if (dir.data ++ ['/']).isPrefixOf path.data then
    let name := path.data.drop (dir.data.length + 1)
    if name ≠ [] ∧ '/' ∉ name then some (String.mk name) else none
  else none

/-- The star of `filepath.Match`: any sequence of non-separator characters, then `k`. -/
def matchStar (k : List Char → Bool) : List Char → Bool
  | [] => k []
  | c :: cs => k (c :: cs) || (c != '/' && matchStar k cs)

/-- The backslash, the escape character of patterns. -/
def backslash : Char := Char.ofNat 92

/-- One element of a pattern of `filepath.Match`: a star, a question mark, a plain (or
escaped) character, or a character class with its ranges. -/
inductive PatItem where
  | star
  | anyChar
  | lit (c : Char)
  | cls (negated : Bool) (ranges : List (Char × Char))
deriving DecidableEq, Repr

/-- Where the reading of a pattern stands: outside a class, after a backslash, or inside a
class (just opened, before an item, after a backslash, after the low end of a range, after
the dash of a range). -/
inductive PatState where
  | top
  | esc
  | clsOpen
  | clsItem (negated : Bool) (ranges : List (Char × Char))
  | clsLoEsc (negated : Bool) (ranges : List (Char × Char))
  | clsAfterLo (negated : Bool) (ranges : List (Char × Char)) (lo : Char)
  | clsHi (negated : Bool) (ranges : List (Char × Char)) (lo : Char)
  | clsHiEsc (negated : Bool) (ranges : List (Char × Char)) (lo : Char)
deriving DecidableEq, Repr

/-- A character read where an item of a class is expected (`getEsc`): `]` closes a class
that has a range, a bare `]` or `-` is a bad pattern, a backslash escapes the next
character. -/
def classItemStep (negated : Bool) (ranges : List (Char × Char)) (c : Char) :
    Option (PatState × List PatItem) :=
  if c = ']' then (if ranges ≠ [] then some (PatState.top, [PatItem.cls negated ranges]) else none)
  else if c = '-' then none
  else if c = backslash then some (PatState.clsLoEsc negated ranges, [])
  else some (PatState.clsAfterLo negated ranges c, [])

/-- One character of a pattern: the next state and the elements completed, or `none` for
`ErrBadPattern`. -/
def patStep : PatState → Char → Option (PatState × List PatItem)
  | .top, c =>
    if c = '*' then some (.top, [PatItem.star])
    else if c = '?' then some (.top, [PatItem.anyChar])
    else if c = '[' then some (.clsOpen, [])
    else if c = backslash then some (.esc, [])
    else some (.top, [PatItem.lit c])
  | .esc, c => some (.top, [PatItem.lit c])
  | .clsOpen, c =>
    if c = '^' then some (.clsItem true [], []) else classItemStep false [] c
  | .clsItem negated ranges, c => classItemStep negated ranges c
  | .clsLoEsc negated ranges, c => some (.clsAfterLo negated ranges c, [])
  | .clsAfterLo negated ranges lo, c =>
    if c = '-' then some (.clsHi negated ranges lo, [])
    else classItemStep negated (ranges ++ [(lo, lo)]) c
  | .clsHi negated ranges lo, c =>
    if c = ']' ∨ c = '-' then none
    else if c = backslash then some (.clsHiEsc negated ranges lo, [])
    else some (.clsItem negated (ranges ++ [(lo, c)]), [])
  | .clsHiEsc negated ranges lo, c => some (.clsItem negated (ranges ++ [(lo, c)]), [])

/-- The elements of a pattern read from state `st`; `none` for `ErrBadPattern` (a class left
open, a backslash at the end). -/
def parseFrom : PatState → List Char → Option (List PatItem)
  | st, [] => if st = PatState.top then some [] else none
  | st, c :: rest =>
    match patStep st c with
    | none => none
    | some (st1, items) => (parseFrom st1 rest).map (items ++ ·)

/-- The elements of a pattern, or `none` when the pattern is malformed. -/
def parsePattern (pattern : String) : Option (List PatItem) :=
  parseFrom PatState.top pattern.data

/-- Whether the elements of a pattern match a name: a star takes any sequence of
non-separator characters, a question mark one non-separator character, a class one
character of its ranges (or outside them when negated). On names without a separator the
leftmost search of `filepath.Match` finds a match exactly when there is one. -/
def matchItems : List PatItem → List Char → Bool
  | [], name => name.isEmpty
  | PatItem.star :: items, name => matchStar (matchItems items) name
  | PatItem.anyChar :: items, name =>
    match name with
    | [] => false
    | c :: cs => c != '/' && matchItems items cs
  | PatItem.lit p :: items, name =>
    match name with
    | [] => false
    | c :: cs => p = c && matchItems items cs
  | PatItem.cls negated ranges :: items, name =>
    match name with
    | [] => false
    | c :: cs =>
      ((ranges.any (fun range => range.1.toNat ≤ c.toNat && c.toNat ≤ range.2.toNat))
        != negated) && matchItems items cs

/-- Model of `filepath.Match(pattern, name)` as `filepath.Glob` uses it, on a pattern it has
found well formed. -/
def filepathMatch (pattern name : String) : Bool :=
  match parsePattern pattern with
  | some items => matchItems items name.data
  | none => false

/-- The test `hasMeta` of `filepath.Glob`: whether a path has one of the characters that
`filepath.Match` reads as pattern syntax. -/
def hasMeta (path : String) : Bool :=
  path.data.any (fun c => c = '*' ∨ c = '?' ∨ c = '[' ∨ c = backslash)

/-- Lexicographic comparison of two texts, the order of Go strings. -/
def lexLe : List Char → List Char → Bool
  | [], _ => true
  | _ :: _, [] => false
  | a :: as, b :: bs => a.toNat < b.toNat || (a = b && lexLe as bs)

/-- Order used by `slices.Sort` on strings. -/
def strLe (a b : String) : Prop := lexLe a.data b.data = true

instance : DecidableRel strLe := fun a b => inferInstanceAs (Decidable (lexLe a.data b.data = true))

/-- Names read from directory `dir` (`Readdirnames`): each direct child once. -/
def readdirnames (fs : FileSystem) (dir : String) : List String :=
  ((fs.map Prod.fst).filterMap (childName dir)).dedup

/-- Names read from the current directory: the paths without a separator. -/
def cwdNames (fs : FileSystem) : List String :=
  ((fs.map Prod.fst).filter (fun path => path ≠ "" ∧ '/' ∉ path.data)).dedup

/-- Splitting of a pattern at its last separator, as `filepath.Split` followed by
`cleanGlobPath`: the directory without the trailing separator (`none` for the current
directory, when the pattern has no separator; the empty path for the root), and the last
element. -/
def splitPattern (pattern : String) : Option String × String :=
  let rev := pattern.data.reverse
  let file := (rev.takeWhile (· ≠ '/')).reverse
  if '/' ∈ pattern.data then
    (some (String.mk ((rev.dropWhile (· ≠ '/')).drop 1).reverse), String.mk file)
  else (none, String.mk file)

/-- Outcome of an external command: the error of running it, if any, and its combined
output. -/
structure CmdOutcome where
  err : Option String
  output : String
deriving DecidableEq, Repr

/-- A call made to the operating system. -/
inductive Call where
  | exec (name : String) (args : List String)
  | stat (path : String)
  | mkdirTemp (dir pattern : String)
  | glob (pattern : String)
  | readFile (path : String)
  | removeAll (path : String)
deriving DecidableEq, Repr

/-- The state a tool call runs in: the filesystem and the calls made so far, oldest first. -/
structure World where
  fs : FileSystem
  calls : List Call
deriving DecidableEq, Repr

/-- The behaviour of the environment, which the program does not control. -/
structure Env where
  /-- error of running `convert -version`, `none` when ImageMagick answers -/
  versionErr : Option String
  /-- error of `os.Stat` other than "does not exist" (permissions and the like) -/
  statFault : String → Option String
  /-- choice of `os.MkdirTemp`: the path of the fresh directory, or its error -/
  mkdirTemp : FileSystem → Except String String
  /-- the external `convert` run on an argument list: its outcome and the filesystem it leaves -/
  convert : List String → FileSystem → CmdOutcome × FileSystem
  /-- the external `identify` run on an argument list -/
  identify : List String → FileSystem → CmdOutcome
  /-- whether `os.RemoveAll` fails to remove the entry at a path (permissions, a file in
  use) -/
  removeFault : String → Bool
  /-- error of `os.ReadFile` on an existing file (permissions, I/O) -/
  readFault : String → Option String

/-- Result of `os.Stat` as the program looks at it. -/
inductive StatResult where
  | found
  | notExist
  | otherError (msg : String)
deriving DecidableEq, Repr

/-- Whether some path above `path` is a regular file, in which case `os.Stat` answers
"not a directory" and not "does not exist". -/
def underRegularFile (fs : FileSystem) (path : String) : Bool :=
  fs.any (fun entry =>
    (entry.1.data ++ ['/']).isPrefixOf path.data &&
      (match fs.find entry.1 with
        | some (Node.file _) => true
        | _ => false))

/-- What `os.Stat` finds at `path` in filesystem `fs`: the entry, or that the path does not
exist, or another error (a fault of the environment, or a path that runs through a regular
file). -/
def statPath (env : Env) (path : String) (fs : FileSystem) : StatResult :=
  match env.statFault path with
  | some msg => .otherError msg
  | none =>
    match fs.find path with
    | some _ => .found
    | none =>
      if underRegularFile fs path then .otherError ("stat " ++ path ++ ": not a directory")
      else .notExist

/-- Model of `os.Stat`. -/
def osStat (env : Env) (path : String) (w : World) : StatResult × World :=
  (statPath env path w.fs, { w with calls := w.calls ++ [Call.stat path] })

/-- Model of `os.MkdirTemp(dir, pattern)`: on success the new directory is in the filesystem. -/
def osMkdirTemp (env : Env) (dir pattern : String) (w : World) : Except String String × World :=
  let calls := w.calls ++ [Call.mkdirTemp dir pattern]
  match env.mkdirTemp w.fs with
  | .error e => (.error e, { w with calls := calls })
  | .ok path => (.ok path, { fs := (path, Node.dir) :: w.fs, calls := calls })

/-- Whether the entry at `entryPath` survives `os.RemoveAll(path)`: it lies outside `path`,
or it or something beneath it (and within `path`) cannot be removed. -/
def survivesRemoveAll (env : Env) (fs : FileSystem) (path entryPath : String) : Bool :=
  !isUnder path entryPath ||
    fs.any (fun e => isUnder path e.1 && isUnder entryPath e.1 && env.removeFault e.1)

/-- Model of `os.RemoveAll(path)`: it removes what it can of `path` and of everything
beneath it, and returns an error when something could not be removed. -/
def osRemoveAll (env : Env) (path : String) (w : World) : Option String × World :=
  (if w.fs.any (fun e => isUnder path e.1 && env.removeFault e.1)
      then some ("unlinkat " ++ path ++ ": operation not permitted") else none,
    { fs := w.fs.filter (fun entry => survivesRemoveAll env w.fs path entry.1),
      calls := w.calls ++ [Call.removeAll path] })

/-- What `os.ReadFile` returns for `path` in filesystem `fs`: the contents of the file, or
the text of the error. -/
def readFileData (env : Env) (path : String) (fs : FileSystem) : Except String (List Byte) :=
  match fs.find path with
  | none => .error ("open " ++ path ++ ": no such file or directory")
  | some Node.dir => .error ("read " ++ path ++ ": is a directory")
  | some (Node.file data) =>
    match env.readFault path with
    | some msg => .error msg
    | none => .ok data

/-- Model of `os.ReadFile`. -/
def osReadFile (env : Env) (path : String) (w : World) : Except String (List Byte) × World :=
  (readFileData env path w.fs, { w with calls := w.calls ++ [Call.readFile path] })

/-- The function `glob(dir, pattern, matches)` of `path/filepath`: the names of directory
`dir` are read and sorted, and those matching `file` are returned joined with the directory.
A path that is not a directory gives no match; the root (the empty path) and the current
directory (`none`) are always there. -/
def globDir (fs : FileSystem) (dir : Option String) (file : String) : List String :=
  match dir with
  | none => ((cwdNames fs).insertionSort strLe).filter (filepathMatch file)
  | some d =>
    if d = "" ∨ fs.find d = some Node.dir then
      (((readdirnames fs d).insertionSort strLe).filter (filepathMatch file)).map
        (filepathJoin d)
    else []

/-- The function `globWithLimit` of `path/filepath` on a well-formed pattern: a pattern
without pattern characters is the path itself when it exists; otherwise the pattern is split
at its last separator, and the last element is matched in the directory, or, when the
directory part has pattern characters of its own, in each of the directories that part
expands to. `fuel` bounds the depth, one per separator. -/
def globWithLimit (fs : FileSystem) : Nat → String → List String
  | 0, _ => []
  | fuel + 1, pattern =>
    if hasMeta pattern = false then
      (if (fs.find pattern).isSome then [pattern] else [])
    else
      match splitPattern pattern with
      | (none, file) => globDir fs none file
      | (some dir, file) =>
        if hasMeta dir = false then globDir fs (some dir) file
        else ((globWithLimit fs fuel dir).map (fun d => globDir fs (some d) file)).flatten

/-- What `filepath.Glob(pattern)` returns in filesystem `fs`: `ErrBadPattern` for a malformed
pattern, the only error there is, and otherwise the matches. -/
def globFiles (_env : Env) (pattern : String) (fs : FileSystem) :
    Except String (List String) :=
  match parsePattern pattern with
  | none => .error "syntax error in pattern"
  | some _ => .ok (globWithLimit fs (pattern.length + 1) pattern)

/-- Model of `filepath.Glob`. -/
def filepathGlob (env : Env) (pattern : String) (w : World) :
    Except String (List String) × World :=
  (globFiles env pattern w.fs, { w with calls := w.calls ++ [Call.glob pattern] })

/-- Model of `exec.Command("convert", args...).CombinedOutput()`. -/
def execConvert (env : Env) (args : List String) (w : World) : CmdOutcome × World :=
  let (out, fs1) := env.convert args w.fs
  (out, { fs := fs1, calls := w.calls ++ [Call.exec "convert" args] })

/-- Model of `exec.Command("identify", args...).CombinedOutput()`. -/
def execIdentify (env : Env) (args : List String) (w : World) : CmdOutcome × World :=
  (env.identify args w.fs, { w with calls := w.calls ++ [Call.exec "identify" args] })

/-! ## The program -/

/-- Parameters of the conversion (`ConvertPDFParams`). -/
structure ConvertPDFParams where
  PDFPath : String
  Density : Int
  Quality : Int
  Page : Int
deriving DecidableEq, Repr

/-- A single page image (`PageImage`). -/
structure PageImage where
  PageNumber : Int
  Base64Data : String
deriving DecidableEq, Repr

/-- Parameters of the page count (`GetPageCountParams`). -/
structure GetPageCountParams where
  PDFPath : String
deriving DecidableEq, Repr

/-- A part of a tool result: `mcp.TextContent` or `mcp.ImageContent`. -/
inductive Content where
  | text (text : String)
  | image (data : List Byte) (mimeType : String)
deriving DecidableEq, Repr

/-- What a tool handler returns: the content of the result, or an error. -/
abbrev ToolResult := Except String (List Content)

/-- Embedding of `checkImageMagick`: runs `convert -version`. -/
def checkImageMagick (env : Env) (w : World) : Option String × World :=
  let w1 : World := { w with calls := w.calls ++ [Call.exec "convert" ["-version"]] }
  match env.versionErr with
  | some err => (some ("ImageMagick is not installed or not in PATH: " ++ err), w1)
  | none => (none, w1)

/-- The loop of `convertPDFToImages` that reads the generated files: `i` is the index of the
next file and `pages` the pages collected so far. -/
def readPages (env : Env) : List String → Nat → List PageImage → World →
    Except String (List PageImage) × World
  | [], _, pages, w => (.ok pages, w)
  | file :: rest, i, pages, w =>
    match osReadFile env file w with
    | (.error err, w1) =>
      (.error ("failed to read image file " ++ file ++ ": " ++ err), w1)
    | (.ok data, w1) =>
      readPages env rest (i + 1)
        (pages ++ [{ PageNumber := (i : Int) + 1, Base64Data := encodeToString data }]) w1

/-- The loop of `convertPDFToImages` that adds each page to the contents. -/
def appendPages : List PageImage → List Content → List Content
  | [], contents => contents
  | page :: rest, contents =>
    match decodeString page.Base64Data with
    | none =>
      appendPages rest (contents ++
        [Content.text ("Page " ++ sprintfD page.PageNumber ++ ": Failed to decode base64 data")])
    | some imageData =>
      appendPages rest (contents ++ [Content.image imageData "image/png"])

/-- The arguments of the `convert` command built by `convertPDFToImages`. -/
def convertArgs (params : ConvertPDFParams) (density quality : Int) (outputPath : String) :
    List String :=
  let args := ["-density", sprintfD density, "-quality", sprintfD quality]
  let args :=
    if params.Page > 0 then
      args ++ [params.PDFPath ++ "[" ++ sprintfD (params.Page - 1) ++ "]"]
    else
      args ++ [params.PDFPath]
  args ++ [outputPath]

/-- The part of `convertPDFToImages` that runs after the temporary directory exists, up to
its return; the deferred removal of the directory follows it. -/
def convertInTempDir (env : Env) (params : ConvertPDFParams) (density quality : Int)
    (tempDir : String) (w : World) : ToolResult × World :=
  let outputPath := filepathJoin tempDir "page-%03d.png"
  let args := convertArgs params density quality outputPath
  match execConvert env args w with
  | ({ err := some err, output := output }, w1) =>
    (.error ("convert failed: " ++ err ++ ", output: " ++ output), w1)
  | ({ err := none, output := _ }, w1) =>
    match filepathGlob env (filepathJoin tempDir "page-*.png") w1 with
    | (.error err, w2) => (.error ("failed to list output files: " ++ err), w2)
    | (.ok files, w2) =>
      if files.length = 0 then (.error "no images were generated from the PDF", w2)
      else
        match readPages env files 0 [] w2 with
        | (.error err, w3) => (.error err, w3)
        | (.ok pages, w3) =>
          let contents := [Content.text ("Successfully converted " ++
            sprintfD (pages.length : Int) ++ " page(s) from PDF to PNG")]
          (.ok (appendPages pages contents), w3)

/-- Embedding of `convertPDFToImages`. -/
def convertPDFToImages (env : Env) (params : ConvertPDFParams) (w : World) :
    ToolResult × World :=
  match checkImageMagick env w with
  | (some err, w1) => (.error err, w1)
  | (none, w1) =>
    let density := if params.Density = 0 then 300 else params.Density
    let quality := if params.Quality = 0 then 100 else params.Quality
    match osStat env params.PDFPath w1 with
    | (.notExist, w2) => (.error ("PDF file does not exist: " ++ params.PDFPath), w2)
    | (_, w2) =>
      match osMkdirTemp env "" "pdf-to-png-*" w2 with
      | (.error err, w3) => (.error ("failed to create temp directory: " ++ err), w3)
      | (.ok tempDir, w3) =>
        let (result, w4) := convertInTempDir env params density quality tempDir w3
        (result, (osRemoveAll env tempDir w4).2)

/-- Embedding of `getPageCount`. -/
def getPageCount (env : Env) (params : GetPageCountParams) (w : World) : ToolResult × World :=
  match checkImageMagick env w with
  | (some err, w1) => (.error err, w1)
  | (none, w1) =>
    match osStat env params.PDFPath w1 with
    | (.notExist, w2) => (.error ("PDF file does not exist: " ++ params.PDFPath), w2)
    | (_, w2) =>
      match execIdentify env ["-format", "%n\\n", params.PDFPath] w2 with
      | ({ err := some err, output := output }, w3) =>
        (.error ("identify failed: " ++ err ++ ", output: " ++ output), w3)
      | ({ err := none, output := output }, w3) =>
        match stringsSplit (trimSpace output) with
        | [] => (.error "no output from identify command", w3)
        | line0 :: _ =>
          match atoi line0 with
          | .error err => (.error ("failed to parse page count: " ++ err), w3)
          | .ok pageCount =>
            (.ok [Content.text ("Total pages: " ++ sprintfD pageCount)], w3)

/-- Characters of C's `printf("%03d", n)` for a scene number: at least three digits,
padded with zeros on the left. -/
def formatPad3 (n : Nat) : List Char :=
  let digits := formatNat n
  List.replicate (3 - digits.length) '0' ++ digits

/-- The file name the external `convert` derives from the template `page-%03d.png` for
scene number `n`. -/
def outputFileName (n : Nat) : String := "page-" ++ String.mk (formatPad3 n) ++ ".png"

/-- The text before the first newline of a text, its first line. -/
def textBeforeNewline (cs : List Char) : List Char := cs.takeWhile (· ≠ '\n')

/-- Whether a text is a base-10 integer: an optional sign followed by at least one decimal
digit. -/
def isBase10Integer (cs : List Char) : Bool :=
  match cs with
  | [] => false
  | c :: rest =>
    if c = '+' ∨ c = '-' then !rest.isEmpty && rest.all Char.isDigit
    else (c :: rest).all Char.isDigit

/-- The pages the reading loop builds from the contents of the files, the first one being
the file of index `i`. -/
def pagesFrom : Nat → List (List Byte) → List PageImage
  | _, [] => []
  | i, data :: rest =>
    { PageNumber := (i : Int) + 1, Base64Data := encodeToString data } :: pagesFrom (i + 1) rest

/-- The world when `convertPDFToImages` has created its temporary directory `tempDir`: the
probe, the check of the path and the creation of the directory have been made. -/
def worldInTempDir (params : ConvertPDFParams) (tempDir : String) (w : World) : World :=
  { fs := (tempDir, Node.dir) :: w.fs,
    calls := w.calls ++ [Call.exec "convert" ["-version"], Call.stat params.PDFPath,
      Call.mkdirTemp "" "pdf-to-png-*"] }

/-- The density and the quality with their defaults applied. -/
def effectiveDensity (params : ConvertPDFParams) : Int :=
  if params.Density = 0 then 300 else params.Density

/-- The quality with its default applied. -/
def effectiveQuality (params : ConvertPDFParams) : Int :=
  if params.Quality = 0 then 100 else params.Quality

/-- A sample environment in which ImageMagick answers, nothing faults and the temporary
directory is `/tmp/pdf-to-png-1`, with the given behaviour of `convert` and the given output
of `identify`. -/
def sampleEnv (convert : List String → FileSystem → CmdOutcome × FileSystem)
    (identifyOutput : String) : Env where
  versionErr := none
  statFault := fun _ => none
  mkdirTemp := fun _ => .ok "/tmp/pdf-to-png-1"
  convert := convert
  identify := fun _ _ => { err := none, output := identifyOutput }
  removeFault := fun _ => false
  readFault := fun _ => none

/-- A sample behaviour of `convert`: it succeeds and writes the given files (name and
contents) into the directory of its output template, the last argument. -/
def convertWriting (pages : List (String × List Byte)) (args : List String)
    (fs : FileSystem) : CmdOutcome × FileSystem :=
  let dir := ((splitPattern (args.getLastD "")).1).getD "."
  ({ err := none, output := "" },
    pages.map (fun page => (filepathJoin dir page.1, Node.file page.2)) ++ fs)

/-- A sample behaviour of `convert`: it fails and writes nothing. -/
def convertFailing (_args : List String) (fs : FileSystem) : CmdOutcome × FileSystem :=
  ({ err := some "exit status 1", output := "convert: no decode delegate" }, fs)

/-- A sample behaviour of `convert`: it succeeds and leaves a directory where a page file
is expected, so that reading it fails. -/
def convertWritingDir (args : List String) (fs : FileSystem) : CmdOutcome × FileSystem :=
  let dir := ((splitPattern (args.getLastD "")).1).getD "."
  ({ err := none, output := "" }, (filepathJoin dir "page-000.png", Node.dir) :: fs)

/-- A sample environment whose temporary directory has a malformed pattern in its path,
so that the listing of the workspace fails. -/
def sampleEnvListingFails : Env :=
  { sampleEnv (convertWriting [("page-000.png", [toByte 1, toByte 2])]) "" with
    mkdirTemp := fun _ => .ok "/tmp/t[/pdf-to-png-1" }

/-- A sample world: one document, no call made yet. -/
def sampleWorld : World :=
  { fs := [("/doc.pdf", Node.file [toByte 37, toByte 80, toByte 68, toByte 70])], calls := [] }

/-- Three sample pages, written in an order that is not the order of their names. -/
def samplePages : List (String × List Byte) :=
  [("page-002.png", [toByte 3]), ("page-000.png", [toByte 1, toByte 2]),
    ("page-001.png", [toByte 9, toByte 8, toByte 7, toByte 6])]

/-- The filesystem left by `convertWriting samplePages` in the sample world. -/
def sampleFs1 : FileSystem :=
  [("/tmp/pdf-to-png-1/page-002.png", Node.file [toByte 3]),
    ("/tmp/pdf-to-png-1/page-000.png", Node.file [toByte 1, toByte 2]),
    ("/tmp/pdf-to-png-1/page-001.png", Node.file [toByte 9, toByte 8, toByte 7, toByte 6]),
    ("/tmp/pdf-to-png-1", Node.dir),
    ("/doc.pdf", Node.file [toByte 37, toByte 80, toByte 68, toByte 70])]

/-- The listing of the sample workspace. -/
def sampleFiles : List String :=
  ["/tmp/pdf-to-png-1/page-000.png", "/tmp/pdf-to-png-1/page-001.png",
    "/tmp/pdf-to-png-1/page-002.png"]

/-- The contents of the files of the sample workspace, in the order of the listing. -/
def sampleDatas : List (List Byte) :=
  [[toByte 1, toByte 2], [toByte 9, toByte 8, toByte 7, toByte 6], [toByte 3]]

/-- A sample environment in which `convert` and `identify` both fail. -/
def sampleEnvCommandsFail : Env :=
  { sampleEnv convertFailing "" with
    identify := fun _ _ =>
      { err := some "exit status 1", output := "identify: unable to open image" } }

/-- A sample environment in which one of the generated files cannot be removed. -/
def sampleEnvRemovalFails : Env :=
  { sampleEnv (convertWriting samplePages) "" with
    removeFault := fun path => path = "/tmp/pdf-to-png-1/page-001.png" }

/-- The pages written for the scene numbers 999 and 1000 of a long document. -/
def longDocumentPages : List (String × List Byte) :=
  [(outputFileName 999, [toByte 99]), (outputFileName 1000, [toByte 100])]
/-! ## Base64 round trip -/

theorem decodeMap_encodeChar (i : Nat) (h : i < 64) : decodeMap (encodeChar i) = some i := by
  interval_cases i <;> rfl

theorem padChar_not_alphabet : decodeMap padChar = none := by decide

theorem assemble_three (a b c : Byte) :
    assemble [(a.val * 65536 + b.val * 256 + c.val) / 262144 % 64,
      (a.val * 65536 + b.val * 256 + c.val) / 4096 % 64,
      (a.val * 65536 + b.val * 256 + c.val) / 64 % 64,
      (a.val * 65536 + b.val * 256 + c.val) % 64] = [a, b, c] := by
  have ha := a.isLt
  have hb := b.isLt
  have hc := c.isLt
  simp only [assemble, List.getD_cons_zero, List.getD_cons_succ, List.length_cons,
    List.length_nil, toByte]
  simp only [List.take, List.cons.injEq, and_true]
  refine ⟨?_, ?_, ?_⟩ <;> (apply Fin.ext; simp only; omega)

theorem assemble_two (a b : Byte) :
    assemble [(a.val * 65536 + b.val * 256) / 262144 % 64,
      (a.val * 65536 + b.val * 256) / 4096 % 64,
      (a.val * 65536 + b.val * 256) / 64 % 64] = [a, b] := by
  have ha := a.isLt
  have hb := b.isLt
  simp only [assemble, List.getD_cons_zero, List.getD_cons_succ, List.length_cons,
    List.length_nil, toByte, List.getD_nil]
  simp only [List.take, List.cons.injEq, and_true]
  refine ⟨?_, ?_⟩ <;> (apply Fin.ext; simp only; omega)

theorem assemble_one (a : Byte) :
    assemble [(a.val * 65536) / 262144 % 64, (a.val * 65536) / 4096 % 64] = [a] := by
  have ha := a.isLt
  simp only [assemble, List.getD_cons_zero, List.getD_cons_succ, List.length_cons,
    List.length_nil, toByte, List.getD_nil]
  simp only [List.take, List.cons.injEq, and_true]
  apply Fin.ext; simp only; omega

theorem decodeChars_sextet (i : Nat) (h : i < 64) (rest : List Char) (dbuf : List Nat) :
    decodeChars (encodeChar i :: rest) dbuf =
      if dbuf.length = 3 then (decodeChars rest []).map (assemble (dbuf ++ [i]) ++ ·)
      else decodeChars rest (dbuf ++ [i]) := by
  simp only [decodeChars, decodeMap_encodeChar i h]

theorem decodeChars_pad (rest : List Char) (dbuf : List Nat) :
    decodeChars (padChar :: rest) dbuf = decodePadding dbuf rest := by
  have h1 : ¬ (padChar = '\n' ∨ padChar = '\r') := by decide
  simp only [decodeChars, padChar_not_alphabet, h1, if_false, ne_eq, not_true_eq_false]

theorem skipNewlines_pad (rest : List Char) : skipNewlines (padChar :: rest) = padChar :: rest := by
  have h1 : ¬ (padChar = '\n' ∨ padChar = '\r') := by decide
  simp only [skipNewlines, h1, if_false]

theorem decodePadding_two (d0 d1 : Nat) :
    decodePadding [d0, d1] [padChar] = some (assemble [d0, d1]) := by
  have h : skipNewlines ([] : List Char) = [] := rfl
  simp [decodePadding, skipNewlines_pad, h]

theorem decodePadding_three (d0 d1 d2 : Nat) :
    decodePadding [d0, d1, d2] [] = some (assemble [d0, d1, d2]) := by
  simp [decodePadding, skipNewlines]

theorem decodeChars_encodeChars (bs : List Byte) : decodeChars (encodeChars bs) [] = some bs := by
  induction bs using encodeChars.induct with
  | case1 => rfl
  | case2 b0 =>
    have h0 : b0.val * 65536 / 262144 % 64 < 64 := Nat.mod_lt _ (by decide)
    have h1 : b0.val * 65536 / 4096 % 64 < 64 := Nat.mod_lt _ (by decide)
    simp only [encodeChars, decodeChars_sextet _ h0, decodeChars_sextet _ h1, decodeChars_pad]
    simp [decodePadding_two, assemble_one]
  | case3 b0 b1 =>
    have h0 : (b0.val * 65536 + b1.val * 256) / 262144 % 64 < 64 := Nat.mod_lt _ (by decide)
    have h1 : (b0.val * 65536 + b1.val * 256) / 4096 % 64 < 64 := Nat.mod_lt _ (by decide)
    have h2 : (b0.val * 65536 + b1.val * 256) / 64 % 64 < 64 := Nat.mod_lt _ (by decide)
    simp only [encodeChars, decodeChars_sextet _ h0, decodeChars_sextet _ h1,
      decodeChars_sextet _ h2, decodeChars_pad]
    simp [decodePadding_three, assemble_two]
  | case4 b0 b1 b2 rest ih =>
    have h0 : (b0.val * 65536 + b1.val * 256 + b2.val) / 262144 % 64 < 64 :=
      Nat.mod_lt _ (by decide)
    have h1 : (b0.val * 65536 + b1.val * 256 + b2.val) / 4096 % 64 < 64 :=
      Nat.mod_lt _ (by decide)
    have h2 : (b0.val * 65536 + b1.val * 256 + b2.val) / 64 % 64 < 64 :=
      Nat.mod_lt _ (by decide)
    have h3 : (b0.val * 65536 + b1.val * 256 + b2.val) % 64 < 64 := Nat.mod_lt _ (by decide)
    simp only [encodeChars, decodeChars_sextet _ h0, decodeChars_sextet _ h1,
      decodeChars_sextet _ h2, decodeChars_sextet _ h3, ih]
    simp [assemble_three]

theorem decode_encode (bs : List Byte) : decodeString (encodeToString bs) = some bs := by
  simp only [decodeString, encodeToString, decodeChars_encodeChars]





/-! ## Decimal text and its parsing -/

theorem digitChar_isDigit (d : Nat) (h : d < 10) : (digitChar d).isDigit = true := by
  interval_cases d <;> rfl

theorem digitChar_toNat (d : Nat) (h : d < 10) : (digitChar d).toNat - 48 = d := by
  interval_cases d <;> rfl

theorem formatNatFuel_indep (f1 : Nat) : ∀ (f2 n : Nat), n ≤ f1 → n ≤ f2 →
    formatNatFuel f1 n = formatNatFuel f2 n := by
  induction f1 with
  | zero =>
    intro f2 n h1 _
    have hn : n = 0 := by omega
    subst hn
    cases f2 <;> simp [formatNatFuel]
  | succ f1 ih =>
    intro f2 n h1 h2
    cases f2 with
    | zero =>
      have hn : n = 0 := by omega
      subst hn
      simp [formatNatFuel]
    | succ f2 =>
      simp only [formatNatFuel]
      by_cases hlt : n < 10
      · simp [hlt]
      · simp only [hlt, if_false]
        rw [ih f2 (n / 10) (by omega) (by omega)]

theorem formatNat_lt (n : Nat) (h : n < 10) : formatNat n = [digitChar n] := by
  unfold formatNat
  cases n with
  | zero => rfl
  | succ n => simp [formatNatFuel, h]

theorem formatNat_ge (n : Nat) (h : 10 ≤ n) :
    formatNat n = formatNat (n / 10) ++ [digitChar (n % 10)] := by
  unfold formatNat
  cases n with
  | zero => omega
  | succ n =>
    have hlt : ¬ (n + 1 < 10) := by omega
    simp only [formatNatFuel, hlt, if_false]
    rw [formatNatFuel_indep n ((n + 1) / 10) ((n + 1) / 10) (by omega) (le_refl _)]

theorem formatNat_all_digits (n : Nat) : ∀ c ∈ formatNat n, c.isDigit = true := by
  induction n using Nat.strong_induction_on with
  | _ n ih =>
    by_cases h : n < 10
    · rw [formatNat_lt n h]
      intro c hc
      simp only [List.mem_singleton] at hc
      subst hc
      exact digitChar_isDigit n h
    · rw [formatNat_ge n (by omega)]
      intro c hc
      rcases List.mem_append.mp hc with hc | hc
      · exact ih (n / 10) (by omega) c hc
      · simp only [List.mem_singleton] at hc
        subst hc
        exact digitChar_isDigit _ (Nat.mod_lt _ (by decide))

theorem formatNat_ne_nil (n : Nat) : formatNat n ≠ [] := by
  by_cases h : n < 10
  · rw [formatNat_lt n h]; simp
  · rw [formatNat_ge n (by omega)]; simp

theorem parseUintLoop_formatNat (n : Nat) : n ≤ 18446744073709551615 → ∀ rest : List Char,
    parseUintLoop (formatNat n ++ rest) 0 = parseUintLoop rest n := by
  induction n using Nat.strong_induction_on with
  | _ n ih =>
    intro hn rest
    by_cases h : n < 10
    · rw [formatNat_lt n h]
      simp only [List.singleton_append, parseUintLoop, digitChar_isDigit n h, if_true,
        digitChar_toNat n h]
      have h1 : ¬ (0 ≥ 1844674407370955162) := by decide
      have h2 : ¬ (n > 18446744073709551615) := by omega
      simp only [h1, h2, if_false, Nat.zero_mul, Nat.zero_add]
      rfl
    · rw [formatNat_ge n (by omega), List.append_assoc, ih (n / 10) (by omega) (by omega)]
      have hd : n % 10 < 10 := Nat.mod_lt _ (by decide)
      simp only [List.singleton_append, parseUintLoop, digitChar_isDigit _ hd, if_true,
        digitChar_toNat _ hd]
      have h1 : ¬ (n / 10 ≥ 1844674407370955162) := by omega
      have h2 : ¬ (n > 18446744073709551615) := by omega
      have h3 : n / 10 * 10 + n % 10 = n := by omega
      simp only [h1, h2, if_false, h3]
      rfl

theorem parseUint_formatNat (n : Nat) (hn : n ≤ 18446744073709551615) :
    parseUint (formatNat n) = .ok n := by
  have h := parseUintLoop_formatNat n hn []
  simp only [List.append_nil] at h
  simp only [parseUint, formatNat_ne_nil n, if_false, h, parseUintLoop]

theorem isDigit_bounds (c : Char) (h : c.isDigit = true) : 48 ≤ c.toNat ∧ c.toNat ≤ 57 := by
  simp only [Char.isDigit, Bool.and_eq_true, decide_eq_true_eq] at h
  exact ⟨h.1, h.2⟩

theorem formatNat_head (n : Nat) : ∃ c cs, formatNat n = c :: cs ∧ c.isDigit = true := by
  have hne := formatNat_ne_nil n
  have hall := formatNat_all_digits n
  cases hf : formatNat n with
  | nil => exact absurd hf hne
  | cons c cs =>
    refine ⟨c, cs, rfl, hall c ?_⟩
    rw [hf]; simp

theorem parseInt_formatInt (n : Int) (hlo : -9223372036854775808 ≤ n)
    (hhi : n < 9223372036854775808) : parseInt (formatInt n) = .ok n := by
  unfold formatInt
  by_cases hneg : n < 0
  · simp only [hneg, if_true]
    have hu := parseUint_formatNat n.natAbs (by omega)
    have h1 : ¬ (9223372036854775808 < n.natAbs) := by omega
    have h2 : -(n.natAbs : Int) = n := by omega
    simp only [parseInt, List.head?_cons, List.tail_cons]
    simp
    rw [hu]
    simp only [h1, if_false, h2]
  · simp only [hneg, if_false]
    obtain ⟨c, cs, hf, hc⟩ := formatNat_head n.natAbs
    have hb := isDigit_bounds c hc
    have hu := parseUint_formatNat n.natAbs (by omega)
    have hplus : c ≠ '+' := by
      intro h; subst h; have := hb.1; revert this; decide
    have hminus : c ≠ '-' := by
      intro h; subst h; have := hb.1; revert this; decide
    rw [hf] at hu ⊢
    have h1 : ¬ (9223372036854775808 ≤ n.natAbs) := by omega
    have h2 : |n| = n := abs_of_nonneg (by omega)
    simp only [parseInt, List.head?_cons, Option.some.injEq, hplus, hminus, or_self, if_false, hu]
    simp
    simp only [h1, if_false, h2]

theorem atoi_sprintfD (n : Int) (hlo : -9223372036854775808 ≤ n)
    (hhi : n < 9223372036854775808) : atoi (sprintfD n) = .ok n := by
  simp only [atoi, sprintfD, parseInt_formatInt n hlo hhi]

/-! ## Trimming and splitting -/

theorem isDigit_not_space (c : Char) (h : c.isDigit = true) : isSpace c = false := by
  have hb := isDigit_bounds c h
  simp only [isSpace, Bool.decide_or, Bool.decide_and, Bool.or_eq_false_iff,
    Bool.and_eq_false_iff, decide_eq_false_iff_not]
  omega

theorem isDigit_ne_newline (c : Char) (h : c.isDigit = true) : c ≠ '\n' := by
  intro hc
  subst hc
  revert h
  decide

theorem rdropWhile_append_keep (p : Char → Bool) (xs : List Char) (hne : xs ≠ [])
    (hlast : p (xs.getLast hne) = false) (ys : List Char) :
    (xs ++ ys).rdropWhile p = xs ++ ys.rdropWhile p := by
  induction ys using List.reverseRecOn with
  | nil =>
    simp only [List.append_nil, List.rdropWhile_nil]
    rw [List.rdropWhile_eq_self_iff]
    intro _
    simp [hlast]
  | append_singleton ys y ih =>
    by_cases hy : p y = true
    · rw [← List.append_assoc, List.rdropWhile_concat_pos _ _ _ hy,
        List.rdropWhile_concat_pos _ _ _ hy, ih]
    · rw [← List.append_assoc, List.rdropWhile_concat_neg _ _ _ hy,
        List.rdropWhile_concat_neg _ _ _ hy, List.append_assoc]

theorem splitLines_ne_nil (cs : List Char) : splitLines cs ≠ [] := by
  induction cs with
  | nil => simp [splitLines]
  | cons c cs ih =>
    simp only [splitLines]
    split
    · simp
    · split <;> simp

theorem splitLines_head (cs : List Char) :
    (splitLines cs).head? = some (cs.takeWhile (· ≠ '\n')) := by
  induction cs with
  | nil => simp [splitLines]
  | cons c cs ih =>
    simp only [splitLines]
    by_cases hc : c = '\n'
    · simp [hc]
    · simp only [hc, if_false]
      cases hs : splitLines cs with
      | nil => exact absurd hs (splitLines_ne_nil cs)
      | cons l ls =>
        rw [hs] at ih
        simp only [List.head?_cons, Option.some.injEq] at ih
        simp [hc, ih]

theorem takeWhile_line (xs rest : List Char) (hx : ∀ c ∈ xs, c ≠ '\n') :
    (xs ++ '\n' :: rest).takeWhile (· ≠ '\n') = xs := by
  induction xs with
  | nil => simp
  | cons x xs ih =>
    have hx0 : x ≠ '\n' := hx x (by simp)
    simp only [List.cons_append, List.takeWhile_cons, ne_eq, hx0, not_false_eq_true,
      decide_True, if_true, List.cons.injEq, true_and]
    exact ih (fun c hc => hx c (List.mem_cons_of_mem _ hc))

theorem takeWhile_whole (xs : List Char) (hx : ∀ c ∈ xs, c ≠ '\n') :
    xs.takeWhile (· ≠ '\n') = xs := by
  rw [List.takeWhile_eq_self_iff]
  intro c hc
  simp [hx c hc]

/-- Trimming an output that starts with a line of non-space characters leaves that line as
the text before the first newline. -/
theorem trim_first_line (xs rest : List Char) (hne : xs ≠ [])
    (hsp : ∀ c ∈ xs, isSpace c = false) (hnl : ∀ c ∈ xs, c ≠ '\n') :
    (trimSpaceChars (xs ++ '\n' :: rest)).takeWhile (· ≠ '\n') = xs := by
  unfold trimSpaceChars
  have hdrop : (xs ++ '\n' :: rest).dropWhile isSpace = xs ++ '\n' :: rest := by
    cases xs with
    | nil => exact absurd rfl hne
    | cons x xs =>
      have hx : isSpace x = false := hsp x (by simp)
      simp [List.dropWhile, hx]
  rw [hdrop, rdropWhile_append_keep isSpace xs hne (hsp _ (List.getLast_mem hne))]
  have hpre : ('\n' :: rest).rdropWhile isSpace <+: '\n' :: rest := List.rdropWhile_prefix _ _
  cases ht : ('\n' :: rest).rdropWhile isSpace with
  | nil => simpa using takeWhile_whole xs hnl
  | cons t ts =>
    rw [ht] at hpre
    obtain ⟨u, hu⟩ := hpre
    simp only [List.cons_append, List.cons.injEq] at hu
    rw [hu.1]
    exact takeWhile_line xs ts hnl

theorem formatInt_ne_nil (n : Int) : formatInt n ≠ [] := by
  unfold formatInt
  split
  · simp
  · exact formatNat_ne_nil _

theorem formatInt_not_space (n : Int) : ∀ c ∈ formatInt n, isSpace c = false := by
  intro c hc
  unfold formatInt at hc
  split at hc
  · rcases List.mem_cons.mp hc with h | h
    · subst h; decide
    · exact isDigit_not_space c (formatNat_all_digits _ c h)
  · exact isDigit_not_space c (formatNat_all_digits _ c hc)

theorem formatInt_no_newline (n : Int) : ∀ c ∈ formatInt n, c ≠ '\n' := by
  intro c hc
  unfold formatInt at hc
  split at hc
  · rcases List.mem_cons.mp hc with h | h
    · subst h; decide
    · exact isDigit_ne_newline c (formatNat_all_digits _ c h)
  · exact isDigit_ne_newline c (formatNat_all_digits _ c hc)

/-- The first of the lines of a trimmed output. -/
theorem stringsSplit_trimSpace (output : String) :
    ∃ rest, stringsSplit (trimSpace output) =
      String.mk ((trimSpaceChars output.data).takeWhile (· ≠ '\n')) :: rest := by
  have h := splitLines_head (trimSpaceChars output.data)
  unfold stringsSplit trimSpace
  cases hs : splitLines (trimSpaceChars output.data) with
  | nil => exact absurd hs (splitLines_ne_nil _)
  | cons l ls =>
    rw [hs] at h
    simp only [List.head?_cons, Option.some.injEq] at h
    exact ⟨ls.map String.mk, by simp [h]⟩

theorem parseUintLoop_all_digits (cs : List Char) : ∀ (n m : Nat),
    parseUintLoop cs n = .ok m → cs.all Char.isDigit = true := by
  induction cs with
  | nil => intro _ _ _; rfl
  | cons c cs ih =>
    intro n m h
    simp only [parseUintLoop] at h
    by_cases hc : c.isDigit = true
    · simp only [hc, if_true] at h
      split at h
      · cases h
      · split at h
        · cases h
        · simp [hc, ih _ _ h]
    · simp [hc] at h

theorem parseInt_ok_base10 (cs : List Char) (n : Int) (h : parseInt cs = .ok n) :
    isBase10Integer cs = true := by
  cases cs with
  | nil => simp [parseInt] at h
  | cons c rest =>
    simp only [parseInt, List.head?_cons, Option.some.injEq, List.tail_cons] at h
    simp only [isBase10Integer]
    by_cases hs : c = '+' ∨ c = '-'
    · have hs' : '+' = c ∨ '-' = c := hs.imp Eq.symm Eq.symm
      simp only [hs, hs', if_true] at h ⊢
      cases hu : parseUint rest with
      | error e => rw [hu] at h; cases e <;> simp at h
      | ok un =>
        unfold parseUint at hu
        by_cases hr : rest = []
        · simp [hr] at hu
        · simp only [hr, if_false] at hu
          simp [hr, parseUintLoop_all_digits rest 0 un hu]
    · have hs' : ¬ ('+' = c ∨ '-' = c) := fun h' => hs (h'.imp Eq.symm Eq.symm)
      simp only [hs, hs', if_false] at h ⊢
      cases hu : parseUint (c :: rest) with
      | error e => rw [hu] at h; cases e <;> simp at h
      | ok un =>
        unfold parseUint at hu
        simp only [reduceCtorEq, if_false] at hu
        exact parseUintLoop_all_digits _ 0 un hu

theorem atoi_error_of_not_base10 (s : String) (h : isBase10Integer s.data = false) :
    ∃ e, atoi s = .error (numErrorText s e) := by
  unfold atoi
  cases hp : parseInt s.data with
  | error e => exact ⟨e, rfl⟩
  | ok n =>
    have := parseInt_ok_base10 s.data n hp
    rw [h] at this
    cases this

/-! ## The filesystem and the steps of the conversion -/

theorem find_after_removeAll (env : Env) (dir path : String) (h : isUnder dir path = true)
    (hremove : ∀ p, isUnder dir p = true → env.removeFault p = false) (all fs : FileSystem) :
    FileSystem.find (fs.filter (fun entry => survivesRemoveAll env all dir entry.1)) path =
      none := by
  have hgone : ∀ p, isUnder dir p = true → survivesRemoveAll env all dir p = false := by
    intro p hp
    simp only [survivesRemoveAll, hp, Bool.not_true, Bool.false_or, List.any_eq_false,
      Bool.and_eq_true, not_and, Bool.not_eq_true]
    intro e _ he
    exact hremove e.1 he.1
  induction fs with
  | nil => rfl
  | cons e fs ih =>
    obtain ⟨p, n⟩ := e
    by_cases hp : survivesRemoveAll env all dir p = true
    · have hne : p ≠ path := by
        intro heq; subst heq; rw [hgone p h] at hp; cases hp
      simp only [List.filter, hp, FileSystem.find, hne, if_false]
      exact ih
    · have hp' : survivesRemoveAll env all dir p = false := by simpa using hp
      simp only [List.filter, hp']
      exact ih

theorem readPages_calls (env : Env) (files : List String) : ∀ (i : Nat)
    (pages : List PageImage) (w : World), ∃ later : List Call,
      (readPages env files i pages w).2.calls = w.calls ++ later ∧
      ∀ c ∈ later, ∃ path, c = Call.readFile path := by
  induction files with
  | nil => intro i pages w; exact ⟨[], by simp [readPages], by simp⟩
  | cons f files ih =>
    intro i pages w
    simp only [readPages, osReadFile]
    cases hr : readFileData env f w.fs with
    | error e => exact ⟨[Call.readFile f], rfl, by simp⟩
    | ok data =>
      simp only []
      obtain ⟨later, h1, h2⟩ := ih (i + 1)
        (pages ++ [{ PageNumber := (i : Int) + 1, Base64Data := encodeToString data }])
        { fs := w.fs, calls := w.calls ++ [Call.readFile f] }
      refine ⟨Call.readFile f :: later, ?_, ?_⟩
      · rw [h1]; simp
      · intro c hc
        rcases List.mem_cons.mp hc with h | h
        · exact ⟨f, h⟩
        · exact h2 c h

theorem readPages_of_reads (env : Env) (files : List String) : ∀ (datas : List (List Byte))
    (i : Nat) (pages : List PageImage) (w : World),
    List.Forall₂ (fun f d => readFileData env f w.fs = .ok d) files datas →
    (readPages env files i pages w).1 = .ok (pages ++ pagesFrom i datas) := by
  induction files with
  | nil =>
    intro datas i pages w h
    cases h
    simp [readPages, pagesFrom]
  | cons f files ih =>
    intro datas i pages w h
    cases h with
    | cons hd htl =>
      rename_i d ds
      simp only [readPages, osReadFile, hd]
      rw [ih ds (i + 1) _ { fs := w.fs, calls := w.calls ++ [Call.readFile f] } htl]
      simp [pagesFrom]

theorem readPages_ok_inv (env : Env) (files : List String) : ∀ (i : Nat)
    (pages result : List PageImage) (w : World),
    (readPages env files i pages w).1 = .ok result →
    ∃ datas, List.Forall₂ (fun f d => readFileData env f w.fs = .ok d) files datas ∧
      result = pages ++ pagesFrom i datas := by
  induction files with
  | nil =>
    intro i pages result w h
    simp only [readPages, Except.ok.injEq] at h
    exact ⟨[], List.Forall₂.nil, by simp [pagesFrom, h]⟩
  | cons f files ih =>
    intro i pages result w h
    simp only [readPages, osReadFile] at h
    cases hr : readFileData env f w.fs with
    | error e => rw [hr] at h; simp at h
    | ok data =>
      rw [hr] at h
      simp only [] at h
      obtain ⟨ds, h1, h2⟩ := ih _ _ _ _ h
      refine ⟨data :: ds, List.Forall₂.cons hr h1, ?_⟩
      rw [h2]; simp [pagesFrom]

theorem appendPages_pagesFrom (datas : List (List Byte)) : ∀ (i : Nat) (contents : List Content),
    appendPages (pagesFrom i datas) contents =
      contents ++ datas.map (fun d => Content.image d "image/png") := by
  induction datas with
  | nil => intro i contents; simp [pagesFrom, appendPages]
  | cons d ds ih =>
    intro i contents
    simp only [pagesFrom, appendPages, decode_encode, ih]
    simp

theorem pagesFrom_length (datas : List (List Byte)) : ∀ i, (pagesFrom i datas).length = datas.length := by
  induction datas with
  | nil => intro i; rfl
  | cons d ds ih => intro i; simp [pagesFrom, ih]

/-- What `convertPDFToImages` does once the probe has succeeded, the path is not reported
missing and the temporary directory `tempDir` has been created. -/
theorem convert_reaches_tempDir (env : Env) (params : ConvertPDFParams) (w : World)
    (tempDir : String) (hprobe : env.versionErr = none)
    (hstat : statPath env params.PDFPath w.fs ≠ StatResult.notExist)
    (hmk : env.mkdirTemp w.fs = .ok tempDir) :
    convertPDFToImages env params w =
      ((convertInTempDir env params (effectiveDensity params) (effectiveQuality params) tempDir
          (worldInTempDir params tempDir w)).1,
        (osRemoveAll env tempDir
          (convertInTempDir env params (effectiveDensity params) (effectiveQuality params)
            tempDir (worldInTempDir params tempDir w)).2).2) := by
  simp only [convertPDFToImages, checkImageMagick, hprobe, osStat, osMkdirTemp, hmk,
    effectiveDensity, effectiveQuality, worldInTempDir]
  cases hs : statPath env params.PDFPath w.fs with
  | notExist => exact absurd hs hstat
  | found => simp
  | otherError msg => simp

/-! ## The order of the listing -/

theorem lex_of_lexLe (as : List Char) : ∀ bs, lexLe as bs = true → as ≠ bs →
    List.Lex (· < ·) as bs := by
  induction as with
  | nil =>
    intro bs _ hne
    cases bs with
    | nil => exact absurd rfl hne
    | cons b bs => exact List.Lex.nil
  | cons a as ih =>
    intro bs h hne
    cases bs with
    | nil => simp [lexLe] at h
    | cons b bs =>
      simp only [lexLe, Bool.or_eq_true, decide_eq_true_eq, Bool.and_eq_true] at h
      rcases h with h | ⟨h, h'⟩
      · exact List.Lex.rel h
      · subst h
        exact List.Lex.cons (ih bs h' (fun heq => hne (by rw [heq])))

theorem string_lt_of_strLe (a b : String) (h : strLe a b) (hne : a ≠ b) : a < b := by
  rw [String.lt_iff_toList_lt]
  exact lex_of_lexLe a.data b.data h (fun heq => hne (String.ext heq))

theorem convertInTempDir_ok (env : Env) (params : ConvertPDFParams) (density quality : Int)
    (tempDir : String) (w : World) (output : String) (fs1 : FileSystem) (files : List String)
    (datas : List (List Byte))
    (hconv : env.convert (convertArgs params density quality
      (filepathJoin tempDir "page-%03d.png")) w.fs = ({ err := none, output := output }, fs1))
    (hglob : globFiles env (filepathJoin tempDir "page-*.png") fs1 = .ok files)
    (hne : files ≠ [])
    (hread : List.Forall₂ (fun f d => readFileData env f fs1 = .ok d) files datas) :
    (convertInTempDir env params density quality tempDir w).1 =
      .ok (Content.text ("Successfully converted " ++ sprintfD (files.length : Int) ++
        " page(s) from PDF to PNG") :: datas.map (fun d => Content.image d "image/png")) := by
  have hlen : files.length ≠ 0 := fun h => hne (List.length_eq_zero.mp h)
  simp only [convertInTempDir, execConvert, hconv, filepathGlob, hglob, hlen, if_false]
  have hr := readPages_of_reads env files datas 0 []
    { fs := fs1, calls := (w.calls ++ [Call.exec "convert" (convertArgs params density quality
      (filepathJoin tempDir "page-%03d.png"))]) ++
      [Call.glob (filepathJoin tempDir "page-*.png")] } hread
  simp only [List.nil_append] at hr
  cases hp : readPages env files 0 []
    { fs := fs1, calls := (w.calls ++ [Call.exec "convert" (convertArgs params density quality
      (filepathJoin tempDir "page-%03d.png"))]) ++
      [Call.glob (filepathJoin tempDir "page-*.png")] } with
  | mk r w3 =>
    rw [hp] at hr
    simp only at hr
    subst hr
    simp only [appendPages_pagesFrom, List.singleton_append, Except.ok.injEq, List.cons.injEq,
      and_true, Content.text.injEq]
    rw [pagesFrom_length, hread.length_eq]

theorem convertInTempDir_ok_inv (env : Env) (params : ConvertPDFParams) (density quality : Int)
    (tempDir : String) (w : World) (parts : List Content)
    (h : (convertInTempDir env params density quality tempDir w).1 = .ok parts) :
    ∃ output fs1 files datas,
      env.convert (convertArgs params density quality (filepathJoin tempDir "page-%03d.png"))
        w.fs = ({ err := none, output := output }, fs1) ∧
      globFiles env (filepathJoin tempDir "page-*.png") fs1 = .ok files ∧
      files ≠ [] ∧
      List.Forall₂ (fun f d => readFileData env f fs1 = .ok d) files datas ∧
      parts = Content.text ("Successfully converted " ++ sprintfD (files.length : Int) ++
        " page(s) from PDF to PNG") :: datas.map (fun d => Content.image d "image/png") := by
  cases hc : env.convert (convertArgs params density quality
      (filepathJoin tempDir "page-%03d.png")) w.fs with
  | mk out fs1 =>
    obtain ⟨err, output⟩ := out
    simp only [convertInTempDir, execConvert, filepathGlob, hc] at h
    cases err with
    | some e => simp at h
    | none =>
      simp only at h
      cases hg : globFiles env (filepathJoin tempDir "page-*.png") fs1 with
      | error e => rw [hg] at h; simp at h
      | ok files =>
        rw [hg] at h
        simp only at h
        by_cases hlen : files.length = 0
        · simp [hlen] at h
        · simp only [hlen, if_false] at h
          cases hp : readPages env files 0 []
            { fs := fs1, calls := (w.calls ++ [Call.exec "convert" (convertArgs params density
              quality (filepathJoin tempDir "page-%03d.png"))]) ++
              [Call.glob (filepathJoin tempDir "page-*.png")] } with
          | mk r w3 =>
            rw [hp] at h
            cases r with
            | error e => simp at h
            | ok pages =>
              simp only [Except.ok.injEq] at h
              obtain ⟨datas, hread, hpages⟩ := readPages_ok_inv env files 0 [] pages _
                (by rw [hp])
              simp only [List.nil_append] at hpages
              refine ⟨output, fs1, files, datas, rfl, hg,
                fun hnil => hlen (by rw [hnil]; rfl), hread, ?_⟩
              rw [← h, hpages, appendPages_pagesFrom, pagesFrom_length, hread.length_eq]
              rfl

theorem convertInTempDir_calls (env : Env) (params : ConvertPDFParams) (density quality : Int)
    (tempDir : String) (w : World) :
    ∃ later : List Call,
      (convertInTempDir env params density quality tempDir w).2.calls =
        w.calls ++ Call.exec "convert" (convertArgs params density quality
          (filepathJoin tempDir "page-%03d.png")) :: later ∧
      ∀ c ∈ later, ∀ name args, c ≠ Call.exec name args := by
  cases hc : env.convert (convertArgs params density quality
      (filepathJoin tempDir "page-%03d.png")) w.fs with
  | mk out fs1 =>
    obtain ⟨err, output⟩ := out
    simp only [convertInTempDir, execConvert, filepathGlob, hc]
    cases err with
    | some e => exact ⟨[], by simp, by simp⟩
    | none =>
      simp only
      cases hg : globFiles env (filepathJoin tempDir "page-*.png") fs1 with
      | error e => exact ⟨[Call.glob (filepathJoin tempDir "page-*.png")], by simp, by simp⟩
      | ok files =>
        simp only
        by_cases hlen : files.length = 0
        · exact ⟨[Call.glob (filepathJoin tempDir "page-*.png")], by simp [hlen], by simp⟩
        · simp only [hlen, if_false]
          obtain ⟨later, h1, h2⟩ := readPages_calls env files 0 []
            { fs := fs1, calls := (w.calls ++ [Call.exec "convert" (convertArgs params density
              quality (filepathJoin tempDir "page-%03d.png"))]) ++
              [Call.glob (filepathJoin tempDir "page-*.png")] }
          refine ⟨Call.glob (filepathJoin tempDir "page-*.png") :: later, ?_, ?_⟩
          · cases hp : readPages env files 0 []
              { fs := fs1, calls := (w.calls ++ [Call.exec "convert" (convertArgs params density
                quality (filepathJoin tempDir "page-%03d.png"))]) ++
                [Call.glob (filepathJoin tempDir "page-*.png")] } with
            | mk r w3 =>
              rw [hp] at h1
              simp only at h1
              cases r <;> simp [h1]
          · intro c hc' name args
            rcases List.mem_cons.mp hc' with h | h
            · rw [h]; simp
            · obtain ⟨p, hp⟩ := h2 c h
              rw [hp]; simp

theorem convert_ok_reaches (env : Env) (params : ConvertPDFParams) (w : World)
    (parts : List Content) (h : (convertPDFToImages env params w).1 = .ok parts) :
    ∃ tempDir, env.versionErr = none ∧
      statPath env params.PDFPath w.fs ≠ StatResult.notExist ∧
      env.mkdirTemp w.fs = .ok tempDir ∧
      (convertInTempDir env params (effectiveDensity params) (effectiveQuality params) tempDir
        (worldInTempDir params tempDir w)).1 = .ok parts := by
  cases hv : env.versionErr with
  | some e => simp [convertPDFToImages, checkImageMagick, hv] at h
  | none =>
    by_cases hs : statPath env params.PDFPath w.fs = StatResult.notExist
    · simp [convertPDFToImages, checkImageMagick, hv, osStat, hs] at h
    · cases hm : env.mkdirTemp w.fs with
      | error e =>
        cases hs' : statPath env params.PDFPath w.fs with
        | notExist => exact absurd hs' hs
        | found => simp [convertPDFToImages, checkImageMagick, hv, osStat, hs', osMkdirTemp, hm] at h
        | otherError msg =>
          simp [convertPDFToImages, checkImageMagick, hv, osStat, hs', osMkdirTemp, hm] at h
      | ok tempDir =>
        rw [convert_reaches_tempDir env params w tempDir hv hs hm] at h
        exact ⟨tempDir, rfl, hs, rfl, h⟩

/-! ## The claims -/

/-- C1: when the probe succeeds, the document exists, the temporary directory is created, the
convert command succeeds and the listing returns a non-empty list of `n` readable files,
`convertPDFToImages` succeeds with `n + 1` parts: the text "Successfully converted n page(s)
from PDF to PNG", then for each listed file, in order, an image part of MIME type image/png
holding the contents of that file; there is no other text part. -/
theorem convert_success_envelope (env : Env) (params : ConvertPDFParams) (w : World)
    (tempDir output : String) (fs1 : FileSystem) (files : List String)
    (datas : List (List Byte))
    (hprobe : env.versionErr = none)
    (hexists : statPath env params.PDFPath w.fs = StatResult.found)
    (hmk : env.mkdirTemp w.fs = .ok tempDir)
    (hconv : env.convert (convertArgs params (effectiveDensity params) (effectiveQuality params)
      (filepathJoin tempDir "page-%03d.png")) ((tempDir, Node.dir) :: w.fs) =
        ({ err := none, output := output }, fs1))
    (hglob : globFiles env (filepathJoin tempDir "page-*.png") fs1 = .ok files)
    (hne : files ≠ [])
    (hread : List.Forall₂ (fun file data => readFileData env file fs1 = .ok data) files datas) :
    (convertPDFToImages env params w).1 =
      .ok (Content.text ("Successfully converted " ++ sprintfD (files.length : Int) ++
        " page(s) from PDF to PNG") :: datas.map (fun data => Content.image data "image/png")) ∧
    (Content.text ("Successfully converted " ++ sprintfD (files.length : Int) ++
        " page(s) from PDF to PNG") ::
      datas.map (fun data => Content.image data "image/png")).length = files.length + 1 := by
  have hstat : statPath env params.PDFPath w.fs ≠ StatResult.notExist := by
    rw [hexists]; simp
  constructor
  · rw [convert_reaches_tempDir env params w tempDir hprobe hstat hmk]
    exact convertInTempDir_ok env params _ _ tempDir (worldInTempDir params tempDir w) output fs1
      files datas hconv hglob hne hread
  · simp [hread.length_eq]

/-- C2: whenever `convertPDFToImages` gets as far as the conversion (probe succeeded, path not
reported missing, temporary directory `tempDir` created), the calls it makes are the probe,
the check of the path, the creation of the directory, and then the convert command with
exactly the arguments -density D -quality Q target template, where D is "300" for density 0
and the decimal text of the density otherwise, Q is "100" for quality 0 and the decimal text
of the quality otherwise, target is the path followed by "[page-1]" when page > 0 and the
path otherwise, and template is `tempDir` joined with "page-%03d.png"; no later call runs a
command. -/
theorem convert_command_arguments (env : Env) (params : ConvertPDFParams) (w : World)
    (tempDir : String) (hprobe : env.versionErr = none)
    (hstat : statPath env params.PDFPath w.fs ≠ StatResult.notExist)
    (hmk : env.mkdirTemp w.fs = .ok tempDir) :
    ∃ later : List Call,
      (convertPDFToImages env params w).2.calls =
        w.calls ++ [Call.exec "convert" ["-version"], Call.stat params.PDFPath,
          Call.mkdirTemp "" "pdf-to-png-*",
          Call.exec "convert" ["-density",
            if params.Density = 0 then "300" else sprintfD params.Density,
            "-quality",
            if params.Quality = 0 then "100" else sprintfD params.Quality,
            if params.Page > 0 then params.PDFPath ++ "[" ++ sprintfD (params.Page - 1) ++ "]"
            else params.PDFPath,
            filepathJoin tempDir "page-%03d.png"]] ++ later ∧
      ∀ c ∈ later, ∀ name args, c ≠ Call.exec name args := by
  rw [convert_reaches_tempDir env params w tempDir hprobe hstat hmk]
  obtain ⟨later, h1, h2⟩ := convertInTempDir_calls env params (effectiveDensity params)
    (effectiveQuality params) tempDir (worldInTempDir params tempDir w)
  refine ⟨later ++ [Call.removeAll tempDir], ?_, ?_⟩
  · have hargs : convertArgs params (effectiveDensity params) (effectiveQuality params)
        (filepathJoin tempDir "page-%03d.png") =
        ["-density", if params.Density = 0 then "300" else sprintfD params.Density,
          "-quality", if params.Quality = 0 then "100" else sprintfD params.Quality,
          if params.Page > 0 then params.PDFPath ++ "[" ++ sprintfD (params.Page - 1) ++ "]"
          else params.PDFPath,
          filepathJoin tempDir "page-%03d.png"] := by
      have h300 : sprintfD 300 = "300" := by decide
      have h100 : sprintfD 100 = "100" := by decide
      unfold convertArgs effectiveDensity effectiveQuality
      by_cases hp : params.Page > 0 <;> by_cases hd : params.Density = 0 <;>
        by_cases hq : params.Quality = 0 <;> simp [hp, hd, hq, h300, h100]
    simp only [osRemoveAll]
    rw [h1, hargs]
    simp [worldInTempDir]
  · intro c hc name args
    rcases List.mem_append.mp hc with h | h
    · exact h2 c h name args
    · simp only [List.mem_singleton] at h
      rw [h]; simp

/-- C4 (amended): for every integer N in the range of a 64-bit `int` and every identify output
whose first line is the decimal text of N ended by a newline, whatever follows, `getPageCount`
(probe succeeding, path not reported missing, identify succeeding) returns the single text
part "Total pages: N". -/
theorem page_count_of_first_line (env : Env) (params : GetPageCountParams) (w : World)
    (N : Int) (rest : List Char)
    (hlo : -9223372036854775808 ≤ N) (hhi : N < 9223372036854775808)
    (hprobe : env.versionErr = none)
    (hstat : statPath env params.PDFPath w.fs ≠ StatResult.notExist)
    (hid : env.identify ["-format", "%n\\n", params.PDFPath] w.fs =
      { err := none, output := String.mk (formatInt N ++ '\n' :: rest) }) :
    (getPageCount env params w).1 = .ok [Content.text ("Total pages: " ++ sprintfD N)] := by
  obtain ⟨tail, hsplit⟩ := stringsSplit_trimSpace (String.mk (formatInt N ++ '\n' :: rest))
  rw [trim_first_line (formatInt N) rest (formatInt_ne_nil N) (formatInt_not_space N)
    (formatInt_no_newline N)] at hsplit
  have hatoi : atoi (String.mk (formatInt N)) = .ok N := atoi_sprintfD N hlo hhi
  cases hs : statPath env params.PDFPath w.fs with
  | notExist => exact absurd hs hstat
  | found =>
    simp only [getPageCount, checkImageMagick, hprobe, osStat, hs, execIdentify, hid, hsplit,
      hatoi]
  | otherError msg =>
    simp only [getPageCount, checkImageMagick, hprobe, osStat, hs, execIdentify, hid, hsplit,
      hatoi]

/-- C5 (amended): for every identify output which, once leading and trailing white space is
trimmed, is empty or has a first line that is not a base-10 integer, `getPageCount` (probe
succeeding, path not reported missing, identify succeeding) fails with the error of the
parse and returns no result part. -/
theorem page_count_unparsable (env : Env) (params : GetPageCountParams) (w : World)
    (output : String)
    (hprobe : env.versionErr = none)
    (hstat : statPath env params.PDFPath w.fs ≠ StatResult.notExist)
    (hid : env.identify ["-format", "%n\\n", params.PDFPath] w.fs =
      { err := none, output := output })
    (hbad : isBase10Integer (textBeforeNewline (trimSpace output).data) = false) :
    ∃ detail, (getPageCount env params w).1 =
      .error ("failed to parse page count: " ++ detail) := by
  obtain ⟨tail, hsplit⟩ := stringsSplit_trimSpace output
  obtain ⟨e, he⟩ := atoi_error_of_not_base10
    (String.mk ((trimSpaceChars output.data).takeWhile (· ≠ '\n'))) hbad
  refine ⟨numErrorText
    (String.mk ((trimSpaceChars output.data).takeWhile (· ≠ '\n'))) e, ?_⟩
  cases hs : statPath env params.PDFPath w.fs with
  | notExist => exact absurd hs hstat
  | found =>
    simp only [getPageCount, checkImageMagick, hprobe, osStat, hs, execIdentify, hid, hsplit, he]
  | otherError msg =>
    simp only [getPageCount, checkImageMagick, hprobe, osStat, hs, execIdentify, hid, hsplit, he]

/-- C6: when the convert command reports success and the listing of the workspace is empty,
`convertPDFToImages` returns the error "no images were generated from the PDF" and no
result; and every successful result is a leading text part followed by at least one more
part. -/
theorem no_output_is_an_error (env : Env) (params : ConvertPDFParams) (w : World) :
    (∀ (tempDir output : String) (fs1 : FileSystem),
      env.versionErr = none →
      statPath env params.PDFPath w.fs ≠ StatResult.notExist →
      env.mkdirTemp w.fs = .ok tempDir →
      env.convert (convertArgs params (effectiveDensity params) (effectiveQuality params)
        (filepathJoin tempDir "page-%03d.png")) ((tempDir, Node.dir) :: w.fs) =
          ({ err := none, output := output }, fs1) →
      globFiles env (filepathJoin tempDir "page-*.png") fs1 = .ok [] →
      (convertPDFToImages env params w).1 = .error "no images were generated from the PDF") ∧
    (∀ parts, (convertPDFToImages env params w).1 = .ok parts →
      ∃ summary rest, parts = Content.text summary :: rest ∧ rest ≠ []) := by
  constructor
  · intro tempDir output fs1 hprobe hstat hmk hconv hglob
    rw [convert_reaches_tempDir env params w tempDir hprobe hstat hmk]
    simp only [convertInTempDir, execConvert, worldInTempDir, hconv, filepathGlob, hglob,
      List.length_nil, if_true]
  · intro parts h
    obtain ⟨tempDir, _, _, _, hin⟩ := convert_ok_reaches env params w parts h
    obtain ⟨output, fs1, files, datas, _, _, hne, hread, hparts⟩ :=
      convertInTempDir_ok_inv env params _ _ tempDir _ parts hin
    refine ⟨_, _, hparts, ?_⟩
    intro hmap
    have hd : datas = [] := List.map_eq_nil_iff.mp hmap
    rw [hd] at hread
    cases hread
    exact hne rfl

/-- C7 (amended): when the probe succeeds and `os.Stat` reports that the path does not exist,
`getPageCount` returns the error "PDF file does not exist: <path>", and `convertPDFToImages`
returns the same error having made only the probe and the check of the path: no temporary
directory is created, the convert command is not run, and the filesystem is unchanged. -/
theorem missing_document (env : Env) (path : String) (w : World)
    (hprobe : env.versionErr = none)
    (hmissing : statPath env path w.fs = StatResult.notExist) :
    (getPageCount env { PDFPath := path } w).1 = .error ("PDF file does not exist: " ++ path) ∧
    ∀ density quality page : Int,
      convertPDFToImages env
          { PDFPath := path, Density := density, Quality := quality, Page := page } w =
        (.error ("PDF file does not exist: " ++ path),
          { fs := w.fs,
            calls := w.calls ++ [Call.exec "convert" ["-version"], Call.stat path] }) := by
  constructor
  · simp only [getPageCount, checkImageMagick, hprobe, osStat, hmissing]
  · intro density quality page
    simp [convertPDFToImages, checkImageMagick, hprobe, osStat, hmissing]

/-- C8 (amended): for every call of `convertPDFToImages` in which the temporary directory
`tempDir` was created and nothing at or beneath it resists `os.RemoveAll`, the removal is the
last call made, and neither that directory nor anything beneath it exists in the filesystem
when the call has returned, whatever the outcome of the convert command, of the listing and
of the reading of the files. -/
theorem workspace_removed (env : Env) (params : ConvertPDFParams) (w : World)
    (tempDir : String) (hprobe : env.versionErr = none)
    (hstat : statPath env params.PDFPath w.fs ≠ StatResult.notExist)
    (hmk : env.mkdirTemp w.fs = .ok tempDir)
    (hremove : ∀ p, isUnder tempDir p = true → env.removeFault p = false)
    (path : String) (hunder : isUnder tempDir path = true) :
    (convertPDFToImages env params w).2.fs.find path = none ∧
    ∃ earlier, (convertPDFToImages env params w).2.calls =
      earlier ++ [Call.removeAll tempDir] := by
  rw [convert_reaches_tempDir env params w tempDir hprobe hstat hmk]
  exact ⟨find_after_removeAll env tempDir path hunder hremove _ _, _, rfl⟩

theorem summary_ne_failure (n N : Int) :
    Content.text ("Successfully converted " ++ sprintfD n ++ " page(s) from PDF to PNG") ≠
      Content.text ("Page " ++ sprintfD N ++ ": Failed to decode base64 data") := by
  intro h
  simp only [Content.text.injEq] at h
  have hd := congrArg String.data h
  simp only [String.data_append] at hd
  simp only [List.cons_append, List.cons.injEq] at hd
  exact absurd hd.1 (by decide)

/-- C10: standard base64 decoding of the standard base64 encoding of any byte sequence
succeeds and returns the same bytes; hence every successful result of `convertPDFToImages`
is the summary followed by one image part per listed file, whose data are the contents read
from that file, and no part is a "Page N: Failed to decode base64 data" text. -/
theorem base64_roundtrip_pages :
    (∀ data : List Byte, decodeString (encodeToString data) = some data) ∧
    (∀ (env : Env) (params : ConvertPDFParams) (w : World) (parts : List Content),
      (convertPDFToImages env params w).1 = .ok parts →
      ∃ (tempDir output : String) (fs1 : FileSystem) (files : List String)
        (datas : List (List Byte)),
        env.mkdirTemp w.fs = .ok tempDir ∧
        env.convert (convertArgs params (effectiveDensity params) (effectiveQuality params)
          (filepathJoin tempDir "page-%03d.png")) ((tempDir, Node.dir) :: w.fs) =
            ({ err := none, output := output }, fs1) ∧
        globFiles env (filepathJoin tempDir "page-*.png") fs1 = .ok files ∧
        List.Forall₂ (fun file data => readFileData env file fs1 = .ok data) files datas ∧
        parts.tail = datas.map (fun data => Content.image data "image/png") ∧
        ∀ N : Int,
          Content.text ("Page " ++ sprintfD N ++ ": Failed to decode base64 data") ∉ parts) := by
  refine ⟨decode_encode, ?_⟩
  intro env params w parts h
  obtain ⟨tempDir, _, _, hmk, hin⟩ := convert_ok_reaches env params w parts h
  obtain ⟨output, fs1, files, datas, hconv, hglob, _, hread, hparts⟩ :=
    convertInTempDir_ok_inv env params _ _ tempDir _ parts hin
  refine ⟨tempDir, output, fs1, files, datas, hmk, hconv, hglob, hread, by rw [hparts]; rfl, ?_⟩
  intro N hmem
  rw [hparts] at hmem
  rcases List.mem_cons.mp hmem with h1 | h1
  · exact summary_ne_failure _ _ h1.symm
  · obtain ⟨d, _, hd⟩ := List.mem_map.mp h1
    cases hd

/-! ## The names written from the output template -/

theorem digitChar_lt (a b : Nat) (h : a < b) (hb : b < 10) : digitChar a < digitChar b := by
  interval_cases b <;> interval_cases a <;> decide

theorem formatPad3_small (n : Nat) (h : n < 1000) :
    formatPad3 n = [digitChar (n / 100), digitChar (n / 10 % 10), digitChar (n % 10)] := by
  unfold formatPad3
  by_cases h1 : n < 10
  · have e1 : n / 100 = 0 := by omega
    have e2 : n / 10 % 10 = 0 := by omega
    have e3 : n % 10 = n := by omega
    rw [formatNat_lt n h1, e1, e2, e3]
    rfl
  · by_cases h2 : n < 100
    · have e1 : n / 100 = 0 := by omega
      have e2 : n / 10 % 10 = n / 10 := by omega
      rw [formatNat_ge n (by omega), formatNat_lt (n / 10) (by omega), e1, e2]
      rfl
    · have e1 : n / 10 / 10 = n / 100 := by omega
      rw [formatNat_ge n (by omega), formatNat_ge (n / 10) (by omega),
        formatNat_lt (n / 10 / 10) (by omega), e1]
      rfl

/-- Below a thousand the names written from the template are in the order of the scene
numbers. -/
theorem outputFileName_lt_of_small (i j : Nat) (hij : i < j) (hj : j < 1000) :
    outputFileName i < outputFileName j := by
  rw [String.lt_iff_toList_lt]
  simp only [outputFileName, String.toList, String.data_append,
    formatPad3_small i (by omega), formatPad3_small j hj, List.append_assoc]
  apply List.Lex.append_left
  simp only [List.cons_append, List.nil_append]
  by_cases c1 : i / 100 = j / 100
  · rw [c1]
    apply List.Lex.cons
    by_cases c2 : i / 10 % 10 = j / 10 % 10
    · rw [c2]
      apply List.Lex.cons
      exact List.Lex.rel (digitChar_lt _ _ (by omega) (by omega))
    · exact List.Lex.rel (digitChar_lt _ _ (by omega) (by omega))
  · exact List.Lex.rel (digitChar_lt _ _ (by omega) (by omega))

/-- C9: the template "page-%03d.png" does not keep the order of the scene numbers beyond
three digits: the name written for 1000 is lexicographically smaller than the name written
for 999 and falls between the names written for 100 and 101; with the files of scenes 999
and 1000 in the workspace, `convertPDFToImages` returns the image of scene 1000 before the
image of scene 999. -/
theorem outputFileName_order_breaks :
    outputFileName 999 = "page-999.png" ∧ outputFileName 1000 = "page-1000.png" ∧
    outputFileName 1000 < outputFileName 999 ∧
    outputFileName 100 < outputFileName 1000 ∧ outputFileName 1000 < outputFileName 101 ∧
    (convertPDFToImages (sampleEnv (convertWriting longDocumentPages) "")
      { PDFPath := "/doc.pdf", Density := 0, Quality := 0, Page := 0 } sampleWorld).1 =
      .ok [Content.text "Successfully converted 2 page(s) from PDF to PNG",
        Content.image [toByte 100] "image/png", Content.image [toByte 99] "image/png"] := by
  refine ⟨by decide, by decide, ?_, ?_, ?_, by decide⟩ <;>
    exact string_lt_of_strLe _ _ (by decide) (by decide)

/-! ## The claims at sample inputs -/

/-- C1 at a sample input: three pages written, listed and read give four parts. -/
theorem convert_success_envelope_witness :
    (convertPDFToImages (sampleEnv (convertWriting samplePages) "")
      { PDFPath := "/doc.pdf", Density := 0, Quality := 0, Page := 0 } sampleWorld).1 =
      .ok [Content.text "Successfully converted 3 page(s) from PDF to PNG",
        Content.image [toByte 1, toByte 2] "image/png",
        Content.image [toByte 9, toByte 8, toByte 7, toByte 6] "image/png",
        Content.image [toByte 3] "image/png"] :=
  (convert_success_envelope (sampleEnv (convertWriting samplePages) "")
    { PDFPath := "/doc.pdf", Density := 0, Quality := 0, Page := 0 } sampleWorld
    "/tmp/pdf-to-png-1" "" sampleFs1 sampleFiles sampleDatas
    (by decide) (by decide) (by decide) (by decide) (by decide) (by decide) (by decide)).1

/-- C2 at a sample input: page 2 at the default density and quality 90. -/
theorem convert_command_arguments_witness :
    ∃ later : List Call,
      (convertPDFToImages (sampleEnv (convertWriting samplePages) "")
        { PDFPath := "/doc.pdf", Density := 0, Quality := 90, Page := 2 } sampleWorld).2.calls =
        [] ++ [Call.exec "convert" ["-version"], Call.stat "/doc.pdf",
          Call.mkdirTemp "" "pdf-to-png-*",
          Call.exec "convert" ["-density", "300", "-quality", "90", "/doc.pdf[1]",
            "/tmp/pdf-to-png-1/page-%03d.png"]] ++ later ∧
      ∀ c ∈ later, ∀ name args, c ≠ Call.exec name args :=
  convert_command_arguments (sampleEnv (convertWriting samplePages) "")
    { PDFPath := "/doc.pdf", Density := 0, Quality := 90, Page := 2 } sampleWorld
    "/tmp/pdf-to-png-1" (by decide) (by decide) (by decide)

/-- C4 (as stated) fails: the first line is the decimal text of 2^63, and `getPageCount`
returns the range error of the parse instead of "Total pages: 9223372036854775808". -/
theorem page_count_out_of_range :
    "9223372036854775808\n" = String.mk (formatInt 9223372036854775808 ++ ['\n']) ∧
    (getPageCount (sampleEnv convertFailing "9223372036854775808\n") { PDFPath := "/doc.pdf" }
      sampleWorld).1 =
      .error ("failed to parse page count: " ++
        numErrorText "9223372036854775808" NumErr.outOfRange) := by
  decide

/-- C4 (amended) at a sample input: a first line "5" followed by two more lines. -/
theorem page_count_of_first_line_witness :
    (getPageCount (sampleEnv convertFailing "5\nwarning: x\n\n") { PDFPath := "/doc.pdf" }
      sampleWorld).1 = .ok [Content.text "Total pages: 5"] :=
  page_count_of_first_line (sampleEnv convertFailing "5\nwarning: x\n\n")
    { PDFPath := "/doc.pdf" } sampleWorld 5 "warning: x\n\n".data
    (by decide) (by decide) (by decide) (by decide) (by decide)

/-- C5 (as stated) fails: the text before the first newline of the output is empty, not a
base-10 integer, and `getPageCount` succeeds with "Total pages: 5". -/
theorem page_count_leading_newline :
    "\n5\n" ≠ "" ∧ isBase10Integer (textBeforeNewline "\n5\n".data) = false ∧
    (getPageCount (sampleEnv convertFailing "\n5\n") { PDFPath := "/doc.pdf" }
      sampleWorld).1 = .ok [Content.text "Total pages: 5"] := by
  decide

/-- C5 (amended) at a sample input: a first line that is not a number. -/
theorem page_count_unparsable_witness :
    ∃ detail, (getPageCount (sampleEnv convertFailing " identify: x\n") { PDFPath := "/doc.pdf" }
      sampleWorld).1 = .error ("failed to parse page count: " ++ detail) :=
  page_count_unparsable (sampleEnv convertFailing " identify: x\n") { PDFPath := "/doc.pdf" }
    sampleWorld " identify: x\n" (by decide) (by decide) (by decide) (by decide)

/-- C6 at sample inputs: a convert that writes nothing, and a successful conversion. -/
theorem no_output_is_an_error_witness :
    (convertPDFToImages (sampleEnv (convertWriting []) "")
      { PDFPath := "/doc.pdf", Density := 0, Quality := 0, Page := 0 } sampleWorld).1 =
      .error "no images were generated from the PDF" ∧
    ∃ summary rest,
      [Content.text "Successfully converted 3 page(s) from PDF to PNG",
        Content.image [toByte 1, toByte 2] "image/png",
        Content.image [toByte 9, toByte 8, toByte 7, toByte 6] "image/png",
        Content.image [toByte 3] "image/png"] = Content.text summary :: rest ∧ rest ≠ [] :=
  ⟨(no_output_is_an_error (sampleEnv (convertWriting []) "")
      { PDFPath := "/doc.pdf", Density := 0, Quality := 0, Page := 0 } sampleWorld).1
      "/tmp/pdf-to-png-1" "" [("/tmp/pdf-to-png-1", Node.dir),
        ("/doc.pdf", Node.file [toByte 37, toByte 80, toByte 68, toByte 70])]
      (by decide) (by decide) (by decide) (by decide) (by decide),
    (no_output_is_an_error (sampleEnv (convertWriting samplePages) "")
      { PDFPath := "/doc.pdf", Density := 0, Quality := 0, Page := 0 } sampleWorld).2 _
      (by decide)⟩

/-- C7 (as stated) fails: the path `/doc.pdf/x` does not exist on the filesystem, it runs
through the regular file `/doc.pdf`, and `os.Stat` answers "not a directory"; `getPageCount`
goes on to run identify, and `convertPDFToImages` creates the temporary directory and runs
convert. -/
theorem missing_path_under_file :
    sampleWorld.fs.find "/doc.pdf/x" = none ∧
    sampleEnvCommandsFail.versionErr = none ∧
    (getPageCount sampleEnvCommandsFail { PDFPath := "/doc.pdf/x" } sampleWorld).1 =
      .error "identify failed: exit status 1, output: identify: unable to open image" ∧
    convertPDFToImages sampleEnvCommandsFail
      { PDFPath := "/doc.pdf/x", Density := 0, Quality := 0, Page := 0 } sampleWorld =
      (.error "convert failed: exit status 1, output: convert: no decode delegate",
        { fs := sampleWorld.fs,
          calls := [Call.exec "convert" ["-version"], Call.stat "/doc.pdf/x",
            Call.mkdirTemp "" "pdf-to-png-*",
            Call.exec "convert" ["-density", "300", "-quality", "100", "/doc.pdf/x",
              "/tmp/pdf-to-png-1/page-%03d.png"],
            Call.removeAll "/tmp/pdf-to-png-1"] }) := by
  decide

/-- C7 (amended) at a sample input: a path that `os.Stat` reports missing. -/
theorem missing_document_witness :
    (getPageCount (sampleEnv (convertWriting samplePages) "5\n") { PDFPath := "/missing.pdf" }
      sampleWorld).1 = .error "PDF file does not exist: /missing.pdf" ∧
    convertPDFToImages (sampleEnv (convertWriting samplePages) "5\n")
      { PDFPath := "/missing.pdf", Density := 0, Quality := 0, Page := 0 } sampleWorld =
      (.error "PDF file does not exist: /missing.pdf",
        { fs := sampleWorld.fs,
          calls := [Call.exec "convert" ["-version"], Call.stat "/missing.pdf"] }) :=
  ⟨(missing_document (sampleEnv (convertWriting samplePages) "5\n") "/missing.pdf" sampleWorld
      (by decide) (by decide)).1,
    (missing_document (sampleEnv (convertWriting samplePages) "5\n") "/missing.pdf" sampleWorld
      (by decide) (by decide)).2 0 0 0⟩

/-- C8 (as stated) fails: a page file cannot be removed, the error of `os.RemoveAll` is
dropped, and after a successful conversion the temporary directory and that file are still
there. -/
theorem workspace_left_when_removal_fails :
    sampleEnvRemovalFails.mkdirTemp sampleWorld.fs = .ok "/tmp/pdf-to-png-1" ∧
    (convertPDFToImages sampleEnvRemovalFails
      { PDFPath := "/doc.pdf", Density := 0, Quality := 0, Page := 0 } sampleWorld).1 =
      .ok [Content.text "Successfully converted 3 page(s) from PDF to PNG",
        Content.image [toByte 1, toByte 2] "image/png",
        Content.image [toByte 9, toByte 8, toByte 7, toByte 6] "image/png",
        Content.image [toByte 3] "image/png"] ∧
    (convertPDFToImages sampleEnvRemovalFails
      { PDFPath := "/doc.pdf", Density := 0, Quality := 0, Page := 0 }
      sampleWorld).2.fs.find "/tmp/pdf-to-png-1" = some Node.dir ∧
    (convertPDFToImages sampleEnvRemovalFails
      { PDFPath := "/doc.pdf", Density := 0, Quality := 0, Page := 0 }
      sampleWorld).2.fs.find "/tmp/pdf-to-png-1/page-001.png" =
      some (Node.file [toByte 9, toByte 8, toByte 7, toByte 6]) := by
  decide

/-- C8 (amended) at sample inputs, one for each way out of the conversion once the directory
exists: success, failure of the convert command, nothing generated, failure to read a file,
and failure of the listing. -/
theorem workspace_removed_witness :
    (convertPDFToImages (sampleEnv (convertWriting samplePages) "")
      { PDFPath := "/doc.pdf", Density := 0, Quality := 0, Page := 0 }
      sampleWorld).2.fs = sampleWorld.fs ∧
    (convertPDFToImages (sampleEnv (convertWriting samplePages) "")
      { PDFPath := "/doc.pdf", Density := 0, Quality := 0, Page := 0 }
      sampleWorld).2.fs.find "/tmp/pdf-to-png-1/page-000.png" = none ∧
    (convertPDFToImages (sampleEnv convertFailing "")
      { PDFPath := "/doc.pdf", Density := 0, Quality := 0, Page := 0 }
      sampleWorld).2.fs.find "/tmp/pdf-to-png-1" = none ∧
    (convertPDFToImages (sampleEnv (convertWriting []) "")
      { PDFPath := "/doc.pdf", Density := 0, Quality := 0, Page := 0 }
      sampleWorld).2.fs.find "/tmp/pdf-to-png-1" = none ∧
    (convertPDFToImages (sampleEnv convertWritingDir "")
      { PDFPath := "/doc.pdf", Density := 0, Quality := 0, Page := 0 }
      sampleWorld).2.fs.find "/tmp/pdf-to-png-1/page-000.png" = none ∧
    (convertPDFToImages sampleEnvListingFails
      { PDFPath := "/doc.pdf", Density := 0, Quality := 0, Page := 0 }
      sampleWorld).1 = .error "failed to list output files: syntax error in pattern" ∧
    (convertPDFToImages sampleEnvListingFails
      { PDFPath := "/doc.pdf", Density := 0, Quality := 0, Page := 0 }
      sampleWorld).2.fs.find "/tmp/t[/pdf-to-png-1/page-000.png" = none :=
  ⟨by decide,
    (workspace_removed (sampleEnv (convertWriting samplePages) "")
      { PDFPath := "/doc.pdf", Density := 0, Quality := 0, Page := 0 } sampleWorld
      "/tmp/pdf-to-png-1" (by decide) (by decide) (by decide) (fun _ _ => rfl)
      "/tmp/pdf-to-png-1/page-000.png" (by decide)).1,
    (workspace_removed (sampleEnv convertFailing "")
      { PDFPath := "/doc.pdf", Density := 0, Quality := 0, Page := 0 } sampleWorld
      "/tmp/pdf-to-png-1" (by decide) (by decide) (by decide) (fun _ _ => rfl)
      "/tmp/pdf-to-png-1" (by decide)).1,
    (workspace_removed (sampleEnv (convertWriting []) "")
      { PDFPath := "/doc.pdf", Density := 0, Quality := 0, Page := 0 } sampleWorld
      "/tmp/pdf-to-png-1" (by decide) (by decide) (by decide) (fun _ _ => rfl)
      "/tmp/pdf-to-png-1" (by decide)).1,
    (workspace_removed (sampleEnv convertWritingDir "")
      { PDFPath := "/doc.pdf", Density := 0, Quality := 0, Page := 0 } sampleWorld
      "/tmp/pdf-to-png-1" (by decide) (by decide) (by decide) (fun _ _ => rfl)
      "/tmp/pdf-to-png-1/page-000.png" (by decide)).1,
    by decide,
    (workspace_removed sampleEnvListingFails
      { PDFPath := "/doc.pdf", Density := 0, Quality := 0, Page := 0 } sampleWorld
      "/tmp/t[/pdf-to-png-1" (by decide) (by decide) (by decide) (fun _ _ => rfl)
      "/tmp/t[/pdf-to-png-1/page-000.png" (by decide)).1⟩

/-- C10 at a sample input: four bytes survive the round trip, and the parts after the
summary of the sample conversion are the contents of the three files. -/
theorem base64_roundtrip_pages_witness :
    decodeString (encodeToString [toByte 9, toByte 8, toByte 7, toByte 6]) =
      some [toByte 9, toByte 8, toByte 7, toByte 6] ∧
    ∃ (tempDir output : String) (fs1 : FileSystem) (files : List String)
      (datas : List (List Byte)),
      (sampleEnv (convertWriting samplePages) "").mkdirTemp sampleWorld.fs = .ok tempDir ∧
      (sampleEnv (convertWriting samplePages) "").convert
        (convertArgs { PDFPath := "/doc.pdf", Density := 0, Quality := 0, Page := 0 }
          (effectiveDensity { PDFPath := "/doc.pdf", Density := 0, Quality := 0, Page := 0 })
          (effectiveQuality { PDFPath := "/doc.pdf", Density := 0, Quality := 0, Page := 0 })
          (filepathJoin tempDir "page-%03d.png")) ((tempDir, Node.dir) :: sampleWorld.fs) =
          ({ err := none, output := output }, fs1) ∧
      globFiles (sampleEnv (convertWriting samplePages) "")
        (filepathJoin tempDir "page-*.png") fs1 = .ok files ∧
      List.Forall₂ (fun file data =>
        readFileData (sampleEnv (convertWriting samplePages) "") file fs1 = .ok data)
        files datas ∧
      [Content.text "Successfully converted 3 page(s) from PDF to PNG",
        Content.image [toByte 1, toByte 2] "image/png",
        Content.image [toByte 9, toByte 8, toByte 7, toByte 6] "image/png",
        Content.image [toByte 3] "image/png"].tail =
        datas.map (fun data => Content.image data "image/png") ∧
      ∀ N : Int,
        Content.text ("Page " ++ sprintfD N ++ ": Failed to decode base64 data") ∉
          [Content.text "Successfully converted 3 page(s) from PDF to PNG",
            Content.image [toByte 1, toByte 2] "image/png",
            Content.image [toByte 9, toByte 8, toByte 7, toByte 6] "image/png",
            Content.image [toByte 3] "image/png"] :=
  ⟨base64_roundtrip_pages.1 _,
    base64_roundtrip_pages.2 (sampleEnv (convertWriting samplePages) "")
      { PDFPath := "/doc.pdf", Density := 0, Quality := 0, Page := 0 } sampleWorld _
      (by decide)⟩

end PdfRead
